import Mathlib

/-!
# Verification of the dev-guard command-guard policy engine

A shallow embedding, in Lean 4, of the core of
`dev-guard/hooks/tool-selection-guard.py`: the quote-aware tokenizer, the
pattern-rule engine, the git-safety predicate rules and their stateful
`fetch_seen` threading, the fetch/URL guard, the oc/kubectl risk
classifier, the trust lookup, and the top-level Bash-command dispatcher.

Python strings are modelled as `List Char` (wrapped in `String` at the
interface), Python `re` patterns as terms of a small regular-expression
AST `RE` evaluated by a fuel-indexed backtracking matcher, and the
process-terminating `_exit_with_decision` calls as an `Option GuardExit`
result threaded through each checking function (`some` = the process
exited with that decision, `none` = control fell through).

External effects are made explicit parameters: the `git rev-parse`
subprocess used by the commit-to-main check becomes an
`Option String` argument (`none` = the subprocess failed, which the code
treats as fail-open), manifest-file inspection becomes a function
argument, and the SQLite trust/event store becomes a list of rows.
-/

namespace DevGuard

/-! ## Python character and string helpers -/

/-- The single-quote character (written numerically to keep source plain). -/
def squote : Char := Char.ofNat 39

/-- The double-quote character. -/
def dquote : Char := Char.ofNat 34

/-- The backtick character. -/
def btick : Char := Char.ofNat 96

/-- The backslash character. -/
def bslash : Char := Char.ofNat 92

/-- Python `str.isspace`-style whitespace as used by `str.strip()` /
`str.split()` and by the regex class `\s` (ASCII subset). -/
def pyWs (c : Char) : Bool :=
  c = ' ' || c = '\t' || c = '\n' || c = '\r' || c = Char.ofNat 11 || c = Char.ofNat 12

/-- The regex class `\w`: ASCII letters, digits and underscore. -/
def wordChar (c : Char) : Bool :=
  ('a' ≤ c && c ≤ 'z') || ('A' ≤ c && c ≤ 'Z') || ('0' ≤ c && c ≤ '9') || c = '_'

/-- ASCII letter, the regex class `[a-zA-Z]`. -/
def asciiAlpha (c : Char) : Bool :=
  ('a' ≤ c && c ≤ 'z') || ('A' ≤ c && c ≤ 'Z')

/-- ASCII digit. -/
def asciiDigit (c : Char) : Bool := '0' ≤ c && c ≤ '9'

/-- Lower-case hex digit, the class `[0-9a-f]`. -/
def lowerHex (c : Char) : Bool := asciiDigit c || ('a' ≤ c && c ≤ 'f')

/-- ASCII `str.lower()` on one character. -/
def lowerChar (c : Char) : Char :=
  if 'A' ≤ c && c ≤ 'Z' then Char.ofNat (c.toNat + 32) else c

/-- Python `str.strip()`: drop leading and trailing whitespace. -/
def pyStrip (l : List Char) : List Char :=
  ((l.dropWhile pyWs).reverse.dropWhile pyWs).reverse

/-- Python `str.strip()` at the `String` interface. -/
def pyStripS (s : String) : String := String.mk (pyStrip s.data)

/-- Helper for `pySplit`: accumulate the current word in reverse. -/
def pySplitAux : List Char → List Char → List (List Char)
  | [], cur => if cur.isEmpty then [] else [cur.reverse]
  | c :: rest, cur =>
    if pyWs c then
      if cur.isEmpty then pySplitAux rest [] else cur.reverse :: pySplitAux rest []
    else pySplitAux rest (c :: cur)

/-- Python `str.split()` with no argument: maximal runs of non-whitespace. -/
def pySplit (l : List Char) : List (List Char) := pySplitAux l []

/-- Python `str.split()` at the `String` interface. -/
def pySplitS (s : String) : List String := (pySplit s.data).map String.mk

/-- Substring test (`needle in haystack` in Python). -/
def containsSub (haystack needle : List Char) : Bool :=
  match haystack with
  | [] => needle.isEmpty
  | _ :: rest => needle.isPrefixOf haystack || containsSub rest needle

/-- Substring test at the `String` interface: `inStr needle haystack`. -/
def inStr (needle haystack : String) : Bool := containsSub haystack.data needle.data

/-- ASCII `str.lower()`. -/
def lowerS (s : String) : String := String.mk (s.data.map lowerChar)

/-- Python `str.startswith` (kernel-reducible list implementation). -/
def pyStartsWith (s pre : String) : Bool := pre.data.isPrefixOf s.data

/-- Python slice `s[n:]` (kernel-reducible list implementation). -/
def pyDrop (s : String) (n : Nat) : String := String.mk (s.data.drop n)

/-- Python `len` of a string (kernel-reducible). -/
def strLen (s : String) : Nat := s.data.length

/-- Python `sep.join(l)` (kernel-reducible). -/
def joinWith (sep : String) : List String → String
  | [] => ""
  | [x] => x
  | x :: rest => x ++ sep ++ joinWith sep rest

/-! ## A small regular-expression engine

Just enough of Python `re` for the patterns the guard uses: character
classes, concatenation, alternation, Kleene star, negative lookahead
`(?!...)`, the anchors `^` and `$` (Python semantics: `$` also matches
just before a final newline), and the word boundary `\b`. -/

inductive RE where
  | eps : RE
  | cls : (Char → Bool) → RE
  | cat : RE → RE → RE
  | alt : RE → RE → RE
  | star : RE → RE
  | nla : RE → RE
  | bos : RE
  | eos : RE
  | wb : RE

/-- Literal character. -/
def RE.lit (c : Char) : RE := RE.cls (fun d => d = c)

/-- Literal string. -/
def reStr (s : String) : RE := s.data.foldr (fun c r => RE.cat (RE.lit c) r) RE.eps

/-- Concatenation of a list of pieces. -/
def reSeq (l : List RE) : RE := l.foldr RE.cat RE.eps

/-- Alternation of a list of pieces (empty list never matches). -/
def reAny : List RE → RE
  | [] => RE.nla RE.eps
  | [r] => r
  | r :: rest => RE.alt r (reAny rest)

/-- Regex `r?`. -/
def reOpt (r : RE) : RE := RE.alt r RE.eps

/-- Regex `r+`. -/
def rePlus (r : RE) : RE := RE.cat r (RE.star r)

/-- Regex `\s*`. -/
def wsStar : RE := RE.star (RE.cls pyWs)

/-- Regex `\s+`. -/
def wsPlus : RE := rePlus (RE.cls pyWs)

/-- Regex `\S`. -/
def nonWs : RE := RE.cls (fun c => !pyWs c)

/-- Regex `.` (any character but newline, Python default). -/
def reDot : RE := RE.cls (fun c => c ≠ '\n')

/-- Regex `.*`. -/
def dotStar : RE := RE.star reDot

/-- Structure size, used to compute an adequate fuel bound. -/
def reSize : RE → Nat
  | .eps | .cls _ | .bos | .eos | .wb => 1
  | .cat a b | .alt a b => reSize a + reSize b + 1
  | .star a | .nla a => reSize a + 1

/-- Is there a word character at index `j`? (out of range = no). -/
def wordAt (s : List Char) (j : Nat) : Bool :=
  match s.get? j with
  | some c => wordChar c
  | none => false

/-- Fuel-indexed backtracking matcher in continuation style:
`reMatch f r s i k` is true when `r` matches some range of `s` starting
at index `i` whose end index satisfies the continuation `k`. -/
def reMatch : Nat → RE → List Char → Nat → (Nat → Bool) → Bool
  | 0, _, _, _, _ => false
  | Nat.succ f, r, s, i, k =>
    match r with
    | .eps => k i
    | .cls p =>
      match s.get? i with
      | some c => p c && k (i + 1)
      | none => false
    | .cat a b => reMatch f a s i (fun j => reMatch f b s j k)
    | .alt a b => reMatch f a s i k || reMatch f b s i k
    | .star a => k i || reMatch f a s i (fun j => decide (i < j) && reMatch f (.star a) s j k)
    | .nla a => !reMatch f a s i (fun _ => true) && k i
    | .bos => decide (i = 0) && k i
    | .eos =>
      (decide (i = s.length) || (decide (i + 1 = s.length) && decide (s.get? i = some '\n'))) && k i
    | .wb =>
      let prev := if i = 0 then false else wordAt s (i - 1)
      (prev != wordAt s i) && k i

/-- Fuel that is always sufficient for the guard's patterns (no nested
unbounded repetition: consumption is one unit per star iteration plus
the AST depth). -/
def reFuel (r : RE) (s : List Char) : Nat := s.length + 8 * reSize r + 64

/-- Python `re.search`: try every start position. -/
def reSearch (r : RE) (s : String) : Bool :=
  (List.range (s.data.length + 1)).any fun i =>
    reMatch (reFuel r s.data) r s.data i (fun _ => true)

/-- Python `re.match`: anchored at position 0. -/
def reMatch0 (r : RE) (s : String) : Bool :=
  reMatch (reFuel r s.data) r s.data 0 (fun _ => true)

/-! ## Tokenizer: `_split_respecting_quotes` and its two delimiter strategies -/

/-- A delimiter-recognition strategy: given the remaining text (starting
at the current position) and the accumulated current segment, return the
delimiter width and the (possibly modified) current segment, or `none`. -/
def DelimFn := List Char → List Char → Option (Nat × List Char)

/-- Source `_is_command_delimiter`: `&&`, `||`, `;`, newline.  On a newline, a
trailing backslash of the accumulated segment is replaced by a space
(and the newline still counts as a delimiter). -/
def cmdDelim : DelimFn := fun rest cur =>
  match rest with
  | '&' :: '&' :: _ => some (2, cur)
  | '|' :: '|' :: _ => some (2, cur)
  | ';' :: _ => some (1, cur)
  | '\n' :: _ =>
    some (1, if cur.getLast? = some bslash then cur.dropLast ++ [' '] else cur)
  | _ => none

/-- Source `_is_pipe_delimiter`: `|` and `|&` (`||` was already consumed by
`split_commands`). -/
def pipeDelim : DelimFn := fun rest cur =>
  match rest with
  | '|' :: '&' :: _ => some (2, cur)
  | '|' :: _ => some (1, cur)
  | _ => none

/-- Core of `_split_respecting_quotes`: scan tracking single/double quote
state, flushing the stripped current segment at each unquoted delimiter.
Fuel-indexed (one fuel per consumed character, which the scan never
exceeds, the delimiter width being at least one). -/
def splitCore (d : DelimFn) : Nat → List Char → Bool → Bool → List Char → List (List Char)
  | 0, _, _, _, _ => []
  | _ + 1, [], _, _, cur => if cur.isEmpty then [] else [pyStrip cur]
  | f + 1, c :: rest, inS, inD, cur =>
    if c = squote && !inD then splitCore d f rest (!inS) inD (cur ++ [c])
    else if c = dquote && !inS then splitCore d f rest inS (!inD) (cur ++ [c])
    else if !inS && !inD then
      match d (c :: rest) cur with
      | some (n, cur2) => pyStrip cur2 :: splitCore d f (rest.drop (n - 1)) inS inD []
      | none => splitCore d f rest inS inD (cur ++ [c])
    else splitCore d f rest inS inD (cur ++ [c])

/-- Source `_split_respecting_quotes` with empty parts removed, at the `String`
interface. -/
def splitWith (d : DelimFn) (s : String) : List String :=
  ((splitCore d (s.data.length + 1) s.data false false []).filter
    (fun p => !p.isEmpty)).map String.mk

/-- Source `split_commands`. -/
def split_commands : String → List String := splitWith cmdDelim

/-- Source `split_pipes`. -/
def split_pipes : String → List String := splitWith pipeDelim

/-! ## `strip_env_prefix`, `strip_shell_keyword` -/

/-- One round of `strip_env_prefix`: match `^\s*[A-Za-z_]\w*=\S*\s+` and
return the remainder, or `none`. -/
def envAssignMatch (l : List Char) : Option (List Char) :=
  match l.dropWhile pyWs with
  | [] => none
  | c :: rest =>
    if asciiAlpha c || c = '_' then
      match rest.dropWhile wordChar with
      | '=' :: rest3 =>
        match rest3.dropWhile (fun d => !pyWs d) with
        | [] => none
        | d :: rest5 => if pyWs d then some (rest5.dropWhile pyWs) else none
      | _ => none
    else none

/-- Source `strip_env_prefix`: repeatedly strip leading `KEY=value ` assignments
(the source name is kept in spirit; the loop is fuel-indexed, one fuel
per consumed character, which the loop always exceeds). -/
def stripEnvAux : Nat → List Char → List Char
  | 0, l => l
  | f + 1, l =>
    match envAssignMatch l with
    | some rest => stripEnvAux f rest
    | none => l

/-- Source `strip_env_prefix` at the `String` interface. -/
def stripEnvVars (s : String) : String :=
  String.mk (stripEnvAux (s.data.length + 1) s.data)

/-- The leading shell control keywords stripped by `strip_shell_keyword`,
in the source's alternation order. -/
def shellKeywords : List String := ["do", "then", "else", "elif", "if", "while", "until"]

/-- One round of `strip_shell_keyword`: match `^\s*(do|then|…)\s+` and
return the remainder, or `none`. -/
def keywordMatch (l : List Char) : Option (List Char) :=
  let l1 := l.dropWhile pyWs
  (shellKeywords.findSome? fun kw =>
    let k := kw.data
    if k.isPrefixOf l1 then
      match l1.drop k.length with
      | [] => none
      | d :: rest => if pyWs d then some (rest.dropWhile pyWs) else none
    else none)

/-- Source `strip_shell_keyword` loop. -/
def stripKeywordAux : Nat → List Char → List Char
  | 0, l => l
  | f + 1, l =>
    match keywordMatch l with
    | some rest => stripKeywordAux f rest
    | none => l

/-- Source `strip_shell_keyword` at the `String` interface. -/
def strip_shell_keyword (s : String) : String :=
  String.mk (stripKeywordAux (s.data.length + 1) s.data)

/-! ## `extract_bash_c`, `extract_subshells`, `_extract_urls` -/

/-- Shared head of both `extract_bash_c` patterns:
`^\s*(?:bash|sh)\s+-c\s+`, returning the remainder after the match. -/
def bashCHead (l : List Char) : Option (List Char) :=
  let l1 := l.dropWhile pyWs
  let afterTool : Option (List Char) :=
    if "bash".data.isPrefixOf l1 then
      match l1.drop 4 with
      | d :: rest => if pyWs d then some (rest.dropWhile pyWs) else none
      | [] => none
    else if "sh".data.isPrefixOf l1 then
      match l1.drop 2 with
      | d :: rest => if pyWs d then some (rest.dropWhile pyWs) else none
      | [] => none
    else none
  match afterTool with
  | none => none
  | some l2 =>
    if "-c".data.isPrefixOf l2 then
      match l2.drop 2 with
      | d :: rest => if pyWs d then some (rest.dropWhile pyWs) else none
      | [] => none
    else none

/-- Non-greedy body of `(['"])(.*?)\1\s*$`: the first closing quote after
which only whitespace remains; returns the content before it. -/
def findInner : List Char → Char → List Char → Option (List Char)
  | [], _, _ => none
  | c :: rest, q, acc =>
    if c = q && rest.all pyWs then some acc.reverse
    else findInner rest q (c :: acc)

/-- Fallback `(\S+)` capture of the unquoted `bash -c` form. -/
def bashCToken (rest : List Char) : Option String :=
  let tok := rest.takeWhile (fun c => !pyWs c)
  if tok.isEmpty then none else some (String.mk (pyStrip tok))

/-- Source `extract_bash_c`: unwrap `bash -c '...'` / `sh -c '...'`, including
the documented truncation limitation of the simple quote matching. -/
def extract_bash_c (s : String) : Option String :=
  match bashCHead s.data with
  | none => none
  | some rest =>
    match rest with
    | [] => none
    | q :: rest2 =>
      if q = squote || q = dquote then
        match findInner rest2 q [] with
        | some content => some (String.mk (pyStrip content))
        | none => bashCToken rest
      else bashCToken rest

/-- Depth-matched scan for the closing parenthesis of a `$(`. -/
def closeParen : List Char → Nat → List Char → Option (List Char)
  | [], _, _ => none
  | c :: rest, depth, acc =>
    if c = ')' && depth = 1 then some acc.reverse
    else
      let depth' := if c = '(' then depth + 1 else if c = ')' then depth - 1 else depth
      closeParen rest depth' (c :: acc)

/-- All `$(...)` bodies, in order of the opening `$(`. -/
def subshellScan : List Char → List String
  | [] => []
  | '$' :: '(' :: rest =>
    (match closeParen rest 1 [] with
     | some content => [String.mk (pyStrip content)]
     | none => []) ++ subshellScan rest
  | _ :: rest => subshellScan rest

/-- All nonempty `` `...` `` bodies (no nesting), mirroring
`re.finditer` non-overlapping semantics (one fuel per consumed char). -/
def backtickAux : Nat → List Char → List String
  | 0, _ => []
  | _ + 1, [] => []
  | f + 1, c :: rest =>
    if c = btick then
      let content := rest.takeWhile (fun d => d ≠ btick)
      match rest.dropWhile (fun d => d ≠ btick) with
      | _ :: rest2 =>
        if content.isEmpty then backtickAux f rest
        else String.mk (pyStrip content) :: backtickAux f rest2
      | [] => []
    else backtickAux f rest

/-- Source `extract_subshells`. -/
def extract_subshells (s : String) : List String :=
  subshellScan s.data ++ backtickAux (s.data.length + 1) s.data

/-- Characters allowed in an extracted URL: the class `[^\s\"'<>]`. -/
def urlChar (c : Char) : Bool :=
  !(pyWs c || c = dquote || c = squote || c = '<' || c = '>')

/-- Match `://` followed by a nonempty run of URL characters. -/
def urlAfterScheme (l : List Char) : Option (List Char × List Char) :=
  if "://".data.isPrefixOf l then
    let runStart := l.drop 3
    let run := runStart.takeWhile urlChar
    if run.isEmpty then none else some (run, runStart.dropWhile urlChar)
  else none

/-- Match `https?://[^\s\"'<>]+` at the head of `l`. -/
def urlHead (l : List Char) : Option (List Char × List Char) :=
  if "http".data.isPrefixOf l then
    match l.drop 4 with
    | 's' :: l5 =>
      match urlAfterScheme l5 with
      | some (run, rest) => some ("https".data ++ "://".data ++ run, rest)
      | none => none
    | l4 =>
      match urlAfterScheme l4 with
      | some (run, rest) => some ("http".data ++ "://".data ++ run, rest)
      | none => none
  else none

/-- Python `re.findall` loop for `_extract_urls` (one fuel per consumed char). -/
def extractUrlsAux : Nat → List Char → List String
  | 0, _ => []
  | _ + 1, [] => []
  | f + 1, c :: rest =>
    match urlHead (c :: rest) with
    | some (u, rest2) => String.mk u :: extractUrlsAux f rest2
    | none => extractUrlsAux f rest

/-- Source `_extract_urls`. -/
def extract_urls (s : String) : List String :=
  extractUrlsAux (s.data.length + 1) s.data

/-! ## Rule data model -/

/-- Character-set class `[...]`. -/
def cset (l : List Char) : RE := RE.cls (fun c => l.contains c)

/-- Negated class `[^...]` (matches newline too, as in Python). -/
def ncset (l : List Char) : RE := RE.cls (fun c => !l.contains c)

/-- Negated class also excluding whitespace, `[^...\s]`. -/
def ncsetWs (l : List Char) : RE := RE.cls (fun c => !(l.contains c || pyWs c))

/-- Model of the source's `CommandRule` named tuple.  `anchored` mirrors
the dispatch test `rule.pattern.pattern.startswith("^")` in
`_check_rules` (true for every built-in rule except `tmp-path`). -/
structure CommandRule where
  name : String
  pattern : RE
  anchored : Bool
  exception : Option RE
  guidance : String
  action : String

/-- Model of the source's `URLRule` named tuple. -/
structure URLRule where
  name : String
  pattern : RE
  guidance : String
  action : String

/-- Model of the source's `GitRule` named tuple: a predicate rule. -/
structure GitRule where
  name : String
  check : String → Bool
  message : String

/-- Exception pattern `^\s*(uvx|uv\s+run)` shared by several rules. -/
def excUvxOrUvRun : RE :=
  reSeq [RE.bos, wsStar, RE.alt (reStr "uvx") (reSeq [reStr "uv", wsPlus, reStr "run"])]

/-- Exception pattern `^\s*uv\s+run`. -/
def excUvRun : RE := reSeq [RE.bos, wsStar, reStr "uv", wsPlus, reStr "run"]

/-- Body alternation of the `echo-noop` / `printf-noop` patterns:
`(['"].*['"]|[^|>&;$`]+)`. -/
def noopBody : RE :=
  RE.alt (reSeq [cset [squote, dquote], dotStar, cset [squote, dquote]])
    (rePlus (ncset ['|', '>', '&', ';', '$', btick]))

/-- Source `RULES`: the ordered built-in tool-selection rule table.
Patterns are transcribed one-for-one from the Python regexes; guidance
strings are verbatim (apostrophes written as `\x27`). -/
def RULES : List CommandRule := [
  ⟨"cat-file", reSeq [RE.bos, wsStar, reStr "cat", wsPlus, RE.nla (reStr "<<"), nonWs],
    true, some (RE.lit '|'),
    "Use the Read tool instead of `cat`. It\x27s always available -- no Bash permission needed.",
    "block"⟩,
  ⟨"head-file", reSeq [RE.bos, wsStar, reStr "head", wsPlus],
    true, some (RE.lit '|'),
    "Use the Read tool with `limit` parameter instead of `head`.", "block"⟩,
  ⟨"tail-file", reSeq [RE.bos, wsStar, reStr "tail", wsPlus],
    true, some (RE.lit '|'),
    "Use the Read tool with `offset` parameter instead of `tail`.", "block"⟩,
  ⟨"grep", reSeq [RE.bos, wsStar, reStr "grep", RE.wb],
    true, none,
    "Use the Grep tool instead of `grep`. For `| wc -l` use `output_mode: \x27count\x27`. For `| head` use `head_limit`.",
    "block"⟩,
  ⟨"rg", reSeq [RE.bos, wsStar, reStr "rg", RE.wb],
    true, none,
    "Use the Grep tool instead of `rg`. For `| wc -l` use `output_mode: \x27count\x27`. For `| head` use `head_limit`.",
    "block"⟩,
  ⟨"find-name", reSeq [RE.bos, wsStar, reStr "find", RE.wb, dotStar, reStr "-name"],
    true, none,
    "Use the Glob tool -- it\x27s auto-approved and supports patterns like \x27**/*.py\x27.",
    "block"⟩,
  ⟨"ls-dir", reSeq [RE.bos, wsStar, reStr "ls", RE.cls pyWs],
    true, some (RE.lit '|'),
    "Use the Glob tool for file listings -- it\x27s auto-approved and supports patterns like \x27**/*.py\x27. Use `ls` via Bash only when you need permissions/metadata.",
    "block"⟩,
  ⟨"sed-i", reSeq [RE.bos, wsStar, reStr "sed", RE.wb, dotStar, RE.cls pyWs, reStr "-i"],
    true, none,
    "Use the Edit tool instead of `sed -i`. It\x27s native -- no Bash permission needed.",
    "block"⟩,
  ⟨"awk-redir", reSeq [RE.bos, wsStar, reStr "awk", RE.wb, dotStar, RE.lit '>', wsStar, nonWs],
    true, none, "Use the Edit tool instead of awk with redirect.", "block"⟩,
  ⟨"echo-redir",
    reSeq [RE.bos, wsStar, RE.alt (reStr "echo") (reStr "printf"), RE.wb, dotStar,
      RE.cls (fun c => c ≠ '2'), RE.lit '>', wsStar, ncsetWs ['&', '/']],
    true, some (reSeq [RE.lit '>', wsStar, reStr "/dev/"]),
    "Use the Write tool instead of redirect. It\x27s native -- no permission needed.",
    "block"⟩,
  ⟨"cat-heredoc", reSeq [RE.bos, wsStar, reStr "cat", wsStar, reStr "<<"],
    true, none,
    "Use the Write tool for file content, or native tools (Grep/Read) for the downstream operation.",
    "block"⟩,
  ⟨"pager", reSeq [RE.bos, wsStar, RE.alt (reStr "less") (reStr "more"), RE.wb],
    true, none,
    "Use the Read tool instead. Pagers are interactive and will hang in this environment.",
    "block"⟩,
  ⟨"editor", reSeq [RE.bos, wsStar, reAny [reStr "nano", reStr "vim", reStr "vi", reStr "emacs"], RE.wb],
    true, none,
    "Use the Edit tool instead. Interactive editors will hang in this environment.",
    "block"⟩,
  ⟨"python-json",
    reSeq [RE.bos, wsStar, reStr "python", reOpt (RE.lit '3'), wsPlus, reStr "-c", wsPlus,
      dotStar, RE.wb, reStr "json", RE.wb],
    true, some excUvRun,
    "Use `jq` for JSON processing instead of python. Example: `jq \x27.key\x27`, `jq -r \x27.[]\x27`, `jq -r \x27.items[] | .name\x27`. If jq can\x27t handle the logic, use `uv run python -c \x27...\x27`.",
    "block"⟩,
  ⟨"python", reSeq [RE.bos, wsStar, reStr "python", reOpt (RE.lit '3'), RE.cls pyWs],
    true, some excUvRun,
    "Use `uv run` instead -- it\x27s auto-approved. Example: `uv run script.py`", "block"⟩,
  ⟨"pip", reSeq [RE.bos, wsStar, reStr "pip", reOpt (RE.lit '3'), wsPlus, RE.cls wordChar],
    true, none,
    "Use `uv add` (install), `uv remove` (uninstall), or `uv pip` for other pip operations.",
    "block"⟩,
  ⟨"pytest", reSeq [RE.bos, wsStar, reStr "pytest", RE.wb],
    true, some excUvxOrUvRun,
    "Check for a `make py-test` or use `uv run pytest` instead -- it\x27s auto-approved.",
    "block"⟩,
  ⟨"black", reSeq [RE.bos, wsStar, reStr "black", RE.wb],
    true, none, "Formatting should be performed with ruff.", "block"⟩,
  ⟨"ruff", reSeq [RE.bos, wsStar, reStr "ruff", RE.wb],
    true, some excUvxOrUvRun,
    "Check for a `make py-lint` or use `uv run ruff` instead -- it\x27s auto-approved.",
    "block"⟩,
  ⟨"mypy", reSeq [RE.bos, wsStar, reStr "mypy", RE.wb],
    true, none, "Type checking should be performed with pyright.", "block"⟩,
  ⟨"pyright", reSeq [RE.bos, wsStar, reStr "pyright", RE.wb],
    true, some excUvxOrUvRun,
    "Check for a `make py-lint` or use `uv run pyright` instead -- it\x27s auto-approved.",
    "block"⟩,
  ⟨"pre-commit",
    reSeq [RE.bos, wsStar,
      reOpt (RE.alt (reSeq [reStr "uvx", wsPlus]) (reSeq [reStr "uv", wsPlus, reStr "run", wsPlus])),
      reStr "pre-commit", RE.wb],
    true, none,
    "Use `prek` instead of `pre-commit`. Check for a `make` target or use `uvx prek run --all-files`.",
    "block"⟩,
  ⟨"prek", reSeq [RE.bos, wsStar, reOpt (reSeq [reStr "uvx", wsPlus]), reStr "prek", RE.wb],
    true, some (reSeq [RE.bos, wsStar, reStr "make", RE.wb]),
    "Check for a `make` target (e.g. `make lint`, `make prek`) instead of running prek directly. If no make target, use `uvx prek run --all-files`.",
    "block"⟩,
  ⟨"ipython", reSeq [RE.bos, wsStar, reStr "ipython", reOpt (RE.lit '3'), RE.wb],
    true, some excUvxOrUvRun,
    "Use `uv run ipython` instead -- it\x27s auto-approved.", "block"⟩,
  ⟨"tox", reSeq [RE.bos, wsStar, reStr "tox", RE.wb],
    true, some excUvxOrUvRun,
    "Use `uvx tox` instead -- it\x27s auto-approved.", "block"⟩,
  ⟨"isort", reSeq [RE.bos, wsStar, reStr "isort", RE.wb],
    true, none, "Import sorting should be performed with ruff.", "block"⟩,
  ⟨"flake8", reSeq [RE.bos, wsStar, reStr "flake8", RE.wb],
    true, none, "Linting should be performed with ruff.", "block"⟩,
  ⟨"cargo-lint",
    reSeq [RE.bos, wsStar, reStr "cargo", wsPlus,
      reAny [reStr "check", reStr "clippy", reStr "fmt"], RE.wb],
    true, none,
    "Check for a `make` target (e.g. `make rust-lint`, `make lint`) instead of running cargo directly. Makefile targets handle working directory and standard flags.",
    "block"⟩,
  ⟨"cargo-test",
    reSeq [RE.bos, wsStar, reStr "cargo", wsPlus, RE.alt (reStr "test") (reStr "nextest"), RE.wb],
    true, none,
    "Check for a `make` target (e.g. `make rust-test`, `make test`) instead of running cargo test directly.",
    "block"⟩,
  ⟨"cargo-build", reSeq [RE.bos, wsStar, reStr "cargo", wsPlus, reStr "build", RE.wb],
    true, none,
    "Check for a `make` target (e.g. `make rust-build`, `make build`) instead of running cargo build directly.",
    "block"⟩,
  ⟨"bash-script",
    reSeq [RE.bos, wsStar, RE.alt (reStr "bash") (reStr "sh"), wsPlus, rePlus nonWs,
      reStr ".sh", RE.wb],
    true, some (reSeq [RE.bos, wsStar, RE.alt (reStr "bash") (reStr "sh"), wsPlus, RE.lit '-']),
    "Check for a `make` target that wraps this script. If none exists, consider creating one.",
    "block"⟩,
  ⟨"direct-script",
    reSeq [RE.bos, wsStar,
      rePlus (RE.cls (fun c => wordChar c || c = '.' || c = '~' || c = '/' || c = '-')),
      reStr ".sh", RE.wb],
    true, none,
    "Check for a `make` target that wraps this script. If none exists, consider creating one.",
    "block"⟩,
  ⟨"tmp-path", reStr "/tmp/",
    false, some (reStr "hack/tmp"),
    "Use `hack/tmp/` (gitignored) instead of `/tmp/` for temporary files. Native tools (Read/Write/Edit) work without Bash permissions on local files. Clean up when done.",
    "block"⟩,
  ⟨"echo-noop", reSeq [RE.bos, wsStar, reStr "echo", wsPlus, noopBody, wsStar, RE.eos],
    true, none,
    "Output text directly in your response instead of using echo.", "block"⟩,
  ⟨"printf-noop", reSeq [RE.bos, wsStar, reStr "printf", wsPlus, noopBody, wsStar, RE.eos],
    true, none,
    "Output text directly in your response instead of using printf.", "block"⟩,
  ⟨"git-rebase-i",
    reSeq [RE.bos, wsStar, reStr "git", wsPlus, reStr "rebase", wsPlus, dotStar,
      RE.alt (reSeq [reStr "-i", RE.wb]) (reSeq [reStr "--interactive", RE.wb])],
    true, none,
    "Interactive rebase will hang. Use git-branchless: `git reword`, `git branchless move`.",
    "block"⟩,
  ⟨"git-add-interactive",
    reSeq [RE.bos, wsStar, reStr "git", wsPlus, reStr "add", wsPlus, dotStar,
      reAny [reSeq [RE.lit '-', cset ['p', 'i'], RE.wb],
        reSeq [reStr "--patch", RE.wb], reSeq [reStr "--interactive", RE.wb]]],
    true, none,
    "Interactive git add will hang. Use `git add` with specific file paths instead.",
    "block"⟩]

/-- Source `AUTH_URL_RULES`: authenticated-service URL patterns.  All
built-in entries use the default action `"block"`. -/
def AUTH_URL_RULES : List URLRule := [
  ⟨"github-api", reStr "api.github.com",
    "This URL targets the GitHub API which requires authentication. Use the `gh` CLI instead. Example: `gh api repos/OWNER/REPO`.",
    "block"⟩,
  ⟨"github-auth-content",
    reSeq [reStr "github.com/", rePlus (ncset ['/']), RE.lit '/', rePlus (ncset ['/']), RE.lit '/',
      reAny [reStr "settings", reStr "pulls", reStr "issues", reStr "actions", reStr "security"]],
    "This GitHub URL requires authentication to return useful content. Use the `gh` CLI instead. Example: `gh pr list`, `gh issue list`, `gh run list`.",
    "block"⟩,
  ⟨"gitlab-api", reStr "gitlab.com/api/",
    "This URL targets the GitLab API which requires authentication. Use `glab api` instead. Example: `glab api projects/:id/issues`.",
    "block"⟩,
  ⟨"gitlab-raw",
    reSeq [reStr "gitlab.com/", rePlus reDot, RE.lit '/',
      RE.alt (reStr "-/raw/") (reStr "-/blob/")],
    "This GitLab URL points to raw/blob content which may require authentication. Use `glab` CLI or clone the repo locally.",
    "block"⟩,
  ⟨"google-docs", reStr "docs.google.com/document/",
    "Google Docs requires authentication. Use a Google MCP tool or `gcloud` CLI to access document content.",
    "block"⟩,
  ⟨"google-drive",
    reSeq [reStr "drive.google.com/", RE.alt (reStr "file") (reStr "drive"), RE.lit '/'],
    "Google Drive requires authentication. Use a Google MCP tool or `gcloud` CLI to access files.",
    "block"⟩,
  ⟨"google-sheets", reStr "sheets.google.com/",
    "Google Sheets requires authentication. Use a Google MCP tool or `gcloud` CLI to access spreadsheet data.",
    "block"⟩,
  ⟨"atlassian-api",
    reSeq [rePlus (RE.cls (fun c => ('a' ≤ c && c ≤ 'z') || asciiDigit c || c = '-')),
      reStr ".atlassian.net/", RE.alt (reSeq [reStr "rest", RE.lit '/', reStr "api"]) (reStr "wiki"),
      RE.lit '/'],
    "This Atlassian URL requires authentication. Use the Atlassian MCP tools instead.",
    "block"⟩,
  ⟨"jira-server",
    reSeq [reStr "jira.", rePlus (RE.cls (fun c => ('a' ≤ c && c ≤ 'z') || asciiDigit c || c = '-')),
      RE.lit '.', reAny [reStr "com", reStr "org", reStr "net"], RE.lit '/'],
    "This Jira server URL requires authentication. Use the `jira` CLI or Atlassian MCP tools instead.",
    "block"⟩,
  ⟨"slack-api",
    reSeq [RE.alt (reStr "api") (reStr "hooks"), reStr ".slack.com/"],
    "This Slack URL requires authentication. Use the Slack MCP tools or access Slack via Playwright MCP.",
    "block"⟩]

/-! ## Git safety subsystem -/

/-- Regex `(^|\s)` at the start of several flag patterns. -/
def bndStart : RE := RE.alt RE.bos (RE.cls pyWs)

/-- Source `_has_force_flag`: `(^|\s)--force(\s|=|$)` or a bundled
short-flag group `(^|\s)-[a-zA-Z]*f[a-zA-Z]*(\s|$)`. -/
def hasForceFlag (cmd : String) : Bool :=
  reSearch (reSeq [bndStart, reStr "--force", reAny [RE.cls pyWs, RE.lit '=', RE.eos]]) cmd ||
  reSearch (reSeq [bndStart, RE.lit '-', RE.star (RE.cls asciiAlpha), RE.lit 'f',
    RE.star (RE.cls asciiAlpha), RE.alt (RE.cls pyWs) RE.eos]) cmd

/-- Source `_has_force_with_lease`:
`(^|\s)--force-with-lease(=[^\s]+)?(\s|$)`. -/
def hasForceWithLease (cmd : String) : Bool :=
  reSearch (reSeq [bndStart, reStr "--force-with-lease",
    reOpt (reSeq [RE.lit '=', rePlus nonWs]), RE.alt (RE.cls pyWs) RE.eos]) cmd

/-- Loop body of `_get_push_target`. -/
def pushTargetAux : List String → Bool → String → String → String × String
  | [], _, r, b => (r, b)
  | p :: rest, foundPush, r, b =>
    if p = "push" then pushTargetAux rest true r b
    else if foundPush then
      if pyStartsWith p "-" then pushTargetAux rest foundPush r b
      else if r = "" then pushTargetAux rest foundPush p b
      else if b = "" then (r, p)
      else (r, b)
    else pushTargetAux rest foundPush r b

/-- Source `_get_push_target`: the `(remote, branch)` after `push`. -/
def getPushTarget (cmd : String) : String × String :=
  pushTargetAux (pySplitS cmd) false "" ""

/-- Source `_next_positional`: first non-flag argument. -/
def nextPositional : List String → Option String
  | [] => none
  | p :: rest => if p = "--" || pyStartsWith p "-" then nextPositional rest else some p

/-- Source `_find_flag_branch`: scan for a branch-creation flag,
returning the branch name and the remaining arguments. -/
def findFlagBranch (flags : List String) (eqPfx : Option String) :
    List String → Option (String × List String)
  | [] => none
  | arg :: rest =>
    if arg = "--" then findFlagBranch flags eqPfx rest
    else if (match eqPfx with | some p => pyStartsWith arg p | none => false) then
      some (pyDrop arg (match eqPfx with | some p => strLen p | none => 0), rest)
    else if flags.contains arg then
      match rest with
      | b :: rest2 => some (b, rest2)
      | [] => none
    else if pyStartsWith arg "-" then findFlagBranch flags eqPfx rest
    else none

/-- Worktree-add scan of `_parse_branch_creation`:
`git worktree add <path> -b <name> [<start-point>]`. -/
def worktreeScan : List String → Bool → Option (String × Option String)
  | [], _ => none
  | arg :: rest, pathFound =>
    if arg = "-b" then
      match rest with
      | b :: rest2 => some (b, nextPositional rest2)
      | [] => none
    else if pyStartsWith arg "-" then worktreeScan rest pathFound
    else if !pathFound then worktreeScan rest true
    else none

/-- Source `_parse_branch_creation`: returns `(branch, start-point?)`
for the three recognized creation shapes, else `none`. -/
def parseBranchCreation (cmd : String) : Option (String × Option String) :=
  let parts := pySplitS cmd
  if parts.length < 3 then none
  else
    match parts with
    | g :: sub :: rest =>
      if g ≠ "git" then none
      else if sub = "switch" then
        match findFlagBranch ["-c", "--create"] (some "--create=") rest with
        | some (b, after) => some (b, nextPositional after)
        | none => none
      else if sub = "checkout" then
        match findFlagBranch ["-b", "-B"] none rest with
        | some (b, after) => some (b, nextPositional after)
        | none => none
      else if sub = "worktree" then
        match rest with
        | "add" :: rest2 => worktreeScan rest2 false
        | _ => none
      else none
    | _ => none

/-- Source `_PROTECTED_BRANCHES`. -/
def protectedBranches : List String := ["main", "master"]

/-- Source `_SAFE_REMOTE_REFS`. -/
def safeRemoteRefs : List String :=
  ["upstream/main", "origin/main", "upstream/master", "origin/master"]

/-- Tail of the `_HEAD_PATTERN` check: `([~^]\d*)*$` (one fuel per
consumed character, which the scan never exceeds). -/
def headSuffix : Nat → List Char → Bool
  | 0, _ => false
  | _ + 1, [] => true
  | f + 1, c :: rest => (c = '~' || c = '^') && headSuffix f (rest.dropWhile asciiDigit)

/-- Source `_HEAD_PATTERN` (`^HEAD([~^]\d*)*$`) as a whole-string test. -/
def isHeadRef (r : String) : Bool :=
  "HEAD".data.isPrefixOf r.data && headSuffix (r.data.length + 1) (r.data.drop 4)

/-- Source `_SHA_PATTERN` (`^[0-9a-f]{7,40}$`) as a whole-string test. -/
def isShaRef (r : String) : Bool :=
  7 ≤ r.data.length && r.data.length ≤ 40 && r.data.all lowerHex

/-- Source `_is_safe_start_point`. -/
def isSafeStartPoint (ref : String) : Bool :=
  safeRemoteRefs.contains ref || isHeadRef ref || isShaRef ref

/-- Source `_is_branch_no_base`. -/
def isBranchNoBase (cmd : String) : Bool :=
  match parseBranchCreation cmd with
  | some (_, none) => true
  | _ => false

/-- Source `_is_branch_from_local_main`. -/
def isBranchFromLocalMain (cmd : String) : Bool :=
  match parseBranchCreation cmd with
  | some (_, some sp) => protectedBranches.contains sp
  | _ => false

/-- Source `_is_branch_from_non_upstream`. -/
def isBranchFromNonUpstream (cmd : String) : Bool :=
  match parseBranchCreation cmd with
  | some (_, some sp) => !isSafeStartPoint sp
  | _ => false

/-- Regex `git\s+X` search helper. -/
def gitWord (w : String) : RE := reSeq [reStr "git", wsPlus, reStr w]

/-- Source `GIT_DENY_RULES`, in table order, messages verbatim. -/
def GIT_DENY_RULES : List GitRule := [
  ⟨"reset-hard",
    fun cmd => reSearch (reSeq [gitWord "reset", wsPlus, reStr "--hard"]) cmd,
    "git reset --hard is FORBIDDEN. Use \x27git reset --mixed\x27 or \x27git stash\x27 to preserve changes."⟩,
  ⟨"push-force",
    fun cmd => reSearch (gitWord "push") cmd && hasForceFlag cmd,
    "Force push (--force/-f) is FORBIDDEN. Use --force-with-lease for safer force pushing."⟩,
  ⟨"push-upstream",
    fun cmd => reSearch (gitWord "push") cmd && (getPushTarget cmd).1 = "upstream",
    "Pushing to upstream is FORBIDDEN. Push to origin and create a PR instead."⟩,
  ⟨"fwl-main",
    fun cmd => reSearch (gitWord "push") cmd && hasForceWithLease cmd &&
      protectedBranches.contains (getPushTarget cmd).2,
    "--force-with-lease to main/master is FORBIDDEN. Use feature branches for rebasing."⟩,
  ⟨"branch-D",
    fun cmd => reSearch (gitWord "branch") cmd &&
      reSearch (reSeq [bndStart, RE.lit '-', RE.star (RE.cls asciiAlpha), RE.lit 'D',
        RE.star (RE.cls asciiAlpha), RE.alt (RE.cls pyWs) RE.eos]) cmd,
    "git branch -D is FORBIDDEN. Use \x27git branch -d\x27 for safe deletion of merged branches."⟩,
  ⟨"branch-force",
    fun cmd => reSearch (reSeq [gitWord "branch", dotStar, reStr "--force"]) cmd,
    "git branch --force is FORBIDDEN. Force operations on branches must be done manually."⟩,
  ⟨"push-origin-main",
    fun cmd => reSearch (reSeq [gitWord "push", dotStar, reStr "origin", wsPlus,
      RE.alt (reStr "main") (reStr "master"), RE.alt (RE.cls pyWs) RE.eos]) cmd,
    "Pushing directly to origin/main or origin/master is FORBIDDEN. Use feature branches and PRs."⟩,
  ⟨"no-verify",
    fun cmd => reSearch (reSeq [reStr "git", wsPlus]) cmd && inStr "--no-verify" cmd,
    "--no-verify flag is FORBIDDEN. Git hooks must run for all commits and pushes."⟩,
  ⟨"add-force",
    fun cmd => reSearch (gitWord "add") cmd && hasForceFlag cmd,
    "git add --force is FORBIDDEN. Files are gitignored for a reason."⟩,
  ⟨"rm-cached-force",
    fun cmd => reSearch (gitWord "rm") cmd && inStr "--cached" cmd &&
      (hasForceFlag cmd || inStr "--force" cmd),
    "git rm --cached --force is FORBIDDEN. Use \x27git rm --cached\x27 without --force."⟩,
  ⟨"rm-unsafe",
    fun cmd => reSearch (gitWord "rm") cmd && !inStr "--cached" cmd,
    "git rm is FORBIDDEN (deletes files). Use \x27git rm --cached\x27 to unstage only."⟩,
  ⟨"clean-ignored",
    fun cmd => reSearch (gitWord "clean") cmd &&
      reSearch (reSeq [RE.lit '-', RE.star (RE.cls asciiAlpha), cset ['x', 'X']]) cmd,
    "git clean with -x or -X is FORBIDDEN. These delete ignored/untracked files irreversibly."⟩,
  ⟨"branch-no-base", isBranchNoBase,
    "Branch creation without a start-point defaults to HEAD (which may be stale or another feature branch). Specify a base: git switch -c <name> upstream/main"⟩]

/-- Source `GIT_ASK_RULES`, in table order, messages verbatim. -/
def GIT_ASK_RULES : List GitRule := [
  ⟨"config-global-write",
    fun cmd => reSearch (reSeq [gitWord "config", wsPlus, reStr "--global"]) cmd &&
      !reSearch (reSeq [RE.alt (reStr "--get") (reStr "--list"),
        RE.alt (RE.cls pyWs) RE.eos]) cmd &&
      !reSearch (reSeq [RE.cls pyWs, reStr "-l", RE.alt (RE.cls pyWs) RE.eos]) cmd,
    "git config --global modifications require permission. Read operations (--get, --list) are allowed."⟩,
  ⟨"stash-drop",
    fun cmd => reSearch (reSeq [gitWord "stash", wsPlus, reStr "drop"]) cmd,
    "git stash drop permanently deletes a stash. Confirm this is intentional."⟩,
  ⟨"checkout-dash-dash",
    fun cmd => reSearch (reSeq [gitWord "checkout", wsPlus, reStr "--"]) cmd,
    "git checkout -- is destructive and deprecated. Consider using \x27git restore\x27 instead."⟩,
  ⟨"filter-branch",
    fun cmd => reSearch (gitWord "filter-branch") cmd,
    "git filter-branch is dangerous and deprecated. Use git-filter-repo if truly needed."⟩,
  ⟨"reflog-delete-expire",
    fun cmd => reSearch (reSeq [gitWord "reflog", wsPlus,
      RE.alt (reStr "delete") (reStr "expire")]) cmd,
    "git reflog delete/expire removes recovery points. Confirm this is intentional."⟩,
  ⟨"remote-remove",
    fun cmd => reSearch (reSeq [gitWord "remote", wsPlus,
      RE.alt (reStr "remove") (reStr "rm")]) cmd,
    "Removing a git remote may break workflows. Confirm this is intentional."⟩,
  ⟨"branch-from-local-main", isBranchFromLocalMain,
    "Local main may be stale. Prefer upstream/main or run git fetch upstream main first."⟩,
  ⟨"branch-from-non-upstream", isBranchFromNonUpstream,
    "Branching from a non-upstream ref risks branch stacking. Use upstream/main instead."⟩]

/-! ## Decisions -/

/-- One call to `_exit_with_decision` (or a raw stderr-print-and-exit),
as observed by the caller: the guidance text, the action, the matched
rule name and the matched segment. -/
structure GuardExit where
  guidance : String
  action : String
  ruleName : Option String
  matched : Option String
deriving Repr, DecidableEq

/-- Source `_FETCH_PATTERN`: `git\s+fetch\s+(upstream|origin)\b`. -/
def fetchPattern : RE :=
  reSeq [reStr "git", wsPlus, reStr "fetch", wsPlus,
    RE.alt (reStr "upstream") (reStr "origin"), RE.wb]

/-- Gate of `check_git_safety`: `(^|\s)git\s`. -/
def gitGate (cmd : String) : Bool :=
  reSearch (reSeq [bndStart, reStr "git", RE.cls pyWs]) cmd

/-- Anchored `^\s*git\s+commit` test of the commit-to-main special case. -/
def gitCommitHead (cmd : String) : Bool :=
  reSearch (reSeq [RE.bos, wsStar, reStr "git", wsPlus, reStr "commit"]) cmd

/-- Message of the `commit-to-main` block (an f-string in the source). -/
def commitToMainMsg (branch : String) : String :=
  "Committing directly to " ++ branch ++
    " is FORBIDDEN. Create a feature branch: git switch -c feature/name"

/-- Message of the `branch-needs-fetch` ask. -/
def branchNeedsFetchMsg : String :=
  "No git fetch detected in this command chain. Fetch first: git fetch upstream main && git switch -c <name> upstream/main"

/-- Is the externally queried current branch protected?  (`none` models
a failed `git rev-parse` subprocess, which fails open.) -/
def commitBranchProtected (branch? : Option String) : Bool :=
  match branch? with
  | some b => protectedBranches.contains b
  | none => false

/-- Source `check_git_safety`, parameterized by the result of the
`git rev-parse --abbrev-ref HEAD` subprocess (`none` = the call failed,
which fails open).  Returns the decision the function exits with, or
`none` when it falls through. -/
def check_git_safety (branch? : Option String) (cmd : String) (fetchSeen : Bool) :
    Option GuardExit :=
  if !gitGate cmd then none
  else
    match GIT_DENY_RULES.find? (fun r => r.check cmd) with
    | some r => some ⟨r.message, "block", some r.name, some cmd⟩
    | none =>
      if gitCommitHead cmd && commitBranchProtected branch? then
        some ⟨commitToMainMsg ((branch?).getD ""), "block", some "commit-to-main", some cmd⟩
      else
        match parseBranchCreation cmd with
        | some (_, some sp) =>
          if safeRemoteRefs.contains sp && !fetchSeen then
            some ⟨branchNeedsFetchMsg, "ask", some "branch-needs-fetch", some cmd⟩
          else
            match GIT_ASK_RULES.find? (fun r => r.check cmd) with
            | some r => some ⟨r.message, "ask", some r.name, some cmd⟩
            | none => none
        | _ =>
          match GIT_ASK_RULES.find? (fun r => r.check cmd) with
          | some r => some ⟨r.message, "ask", some r.name, some cmd⟩
          | none => none

/-! ## Rule dispatch: `_check_rules`, `_check_pipes` -/

/-- Source `_PIPE_SEGMENT_SKIP`: rules not re-checked on later pipe
segments. -/
def pipeSegmentSkip : List String :=
  ["cat-file", "head-file", "tail-file", "grep", "rg", "find-name", "ls-dir",
   "sed-i", "awk-redir", "echo-redir", "cat-heredoc", "echo-noop", "printf-noop"]

/-- Source `_check_rules`: strip a leading shell keyword, run git safety,
then the pattern-rule table in order (skipping `skipRules`), first match
with no exception winning. -/
def checkRules (branch? : Option String) (cmd : String) (fetchSeen : Bool)
    (skipRules : Option (List String)) : Option GuardExit :=
  let cmd := strip_shell_keyword cmd
  match check_git_safety branch? cmd fetchSeen with
  | some e => some e
  | none =>
    let normalized := stripEnvVars cmd
    RULES.findSome? fun r =>
      if (match skipRules with | some l => l.contains r.name | none => false) then none
      else
        let target := if r.anchored then normalized else cmd
        if reSearch r.pattern target then
          if (match r.exception with | some ex => reSearch ex cmd | none => false) then none
          else some ⟨r.guidance, r.action, some r.name, some cmd⟩
        else none

/-- Source `_check_pipes`: check pipe segments after the first with the
pipe-exemption skip set. -/
def checkPipes (branch? : Option String) (cmd : String) (fetchSeen : Bool) :
    Option GuardExit :=
  match split_pipes cmd with
  | _ :: rest@(_ :: _) =>
    rest.findSome? fun seg => checkRules branch? seg fetchSeen (some pipeSegmentSkip)
  | _ => none

/-! ## oc/kubectl introspection -/

/-- Source `_OC_RISK_LEVELS` as a level-indexed table. -/
def ocRiskSet (level : String) : List String :=
  if level = "critical" then
    ["namespace", "project", "clusterrole", "clusterrolebinding", "node",
     "persistentvolume", "customresourcedefinition", "crd", "apiservice",
     "mutatingwebhookconfiguration", "validatingwebhookconfiguration"]
  else if level = "high" then
    ["deployment", "statefulset", "daemonset", "replicaset", "service", "ingress",
     "route", "configmap", "secret", "serviceaccount", "role", "rolebinding",
     "networkpolicy", "persistentvolumeclaim", "pvc", "job", "cronjob"]
  else if level = "medium" then
    ["pod", "replicationcontroller", "endpoints", "event", "horizontalpodautoscaler",
     "hpa", "poddisruptionbudget", "pdb", "limitrange", "resourcequota"]
  else if level = "low" then
    ["build", "buildconfig", "imagestream", "imagestreamtag", "template",
     "catalog", "packagemanifest"]
  else []

/-- Source `_OC_MUTATING_VERBS`. -/
def ocMutatingVerbs : List String :=
  ["create", "apply", "delete", "patch", "replace", "set", "edit", "scale",
   "rollout", "expose", "label", "annotate", "taint", "adm", "policy"]

/-- Source `_OC_EXEC_VERBS`. -/
def ocExecVerbs : List String := ["exec", "rsh", "debug", "attach", "port-forward", "cp"]

/-- Source `ParsedResourceCommand` (the dict built by
`_parse_oc_command`); `nspace` models the `namespace` key. -/
structure OcParsed where
  tool : String
  verb : Option String
  resourceType : Option String
  nspace : Option String
  filename : Option String
  flags : List String
deriving Repr, DecidableEq

/-- Find `oc` or `kubectl` among the words, returning it and the words
after it. -/
def findTool : List String → Option (String × List String)
  | [] => none
  | p :: rest => if p = "oc" || p = "kubectl" then some (p, rest) else findTool rest

/-- Verb extraction of `_parse_oc_command`: first non-flag word, lowered. -/
def ocVerb (remaining : List String) : Option String :=
  match remaining.find? (fun p => !pyStartsWith p "-") with
  | some p => some (lowerS p)
  | none => none

/-- Argument loop of `_parse_oc_command`. -/
def ocArgsLoop : List String → Bool → OcParsed → OcParsed
  | [], _, acc => acc
  | arg :: rest, verbSeen, acc =>
    if (arg = "-n" || arg = "--namespace") && rest ≠ [] then
      match rest with
      | v :: rest2 => ocArgsLoop rest2 verbSeen { acc with nspace := some v }
      | [] => acc
    else if pyStartsWith arg "--namespace=" then
      ocArgsLoop rest verbSeen { acc with nspace := some (pyDrop arg 12) }
    else if (arg = "-f" || arg = "--filename") && rest ≠ [] then
      match rest with
      | v :: rest2 => ocArgsLoop rest2 verbSeen { acc with filename := some v }
      | [] => acc
    else if pyStartsWith arg "--filename=" then
      ocArgsLoop rest verbSeen { acc with filename := some (pyDrop arg 11) }
    else if pyStartsWith arg "-" then
      ocArgsLoop rest verbSeen { acc with flags := acc.flags ++ [arg] }
    else if !verbSeen then ocArgsLoop rest true acc
    else if acc.resourceType = none then
      ocArgsLoop rest verbSeen
        { acc with resourceType := some (String.mk ((lowerS arg).data.takeWhile (fun c => c ≠ '/'))) }
    else ocArgsLoop rest verbSeen acc

/-- Source `_parse_oc_command`. -/
def parse_oc_command (cmd : String) : Option OcParsed :=
  let parts := pySplitS cmd
  if parts.isEmpty then none
  else
    match findTool parts with
    | none => none
    | some (tool, remaining) =>
      let base : OcParsed := ⟨tool, none, none, none, none, []⟩
      if remaining.isEmpty then some base
      else some (ocArgsLoop remaining false { base with verb := ocVerb remaining })

/-- Source `_risk_order`. -/
def riskOrder (level : String) : Nat :=
  if level = "safe" then 0 else if level = "low" then 1 else if level = "medium" then 2
  else if level = "high" then 3 else if level = "critical" then 4 else 0

/-- Source `_classify_oc_risk`. -/
def classify_oc_risk (parsed? : Option OcParsed) : String × Option String :=
  match parsed? with
  | none => ("safe", none)
  | some p =>
    match p.verb with
    | none => ("safe", none)
    | some verb =>
      if ocExecVerbs.contains verb then
        ("high", some (verb ++ " provides direct container access"))
      else if ["get", "describe", "logs", "status", "explain", "api-resources",
          "api-versions"].contains verb then ("safe", none)
      else if p.flags.any (fun f => pyStartsWith f "--dry-run") then ("safe", some "dry-run mode")
      else if verb = "delete" then
        match p.resourceType with
        | some r =>
          if (ocRiskSet "critical").contains r then
            ("critical", some ("deleting critical resource type: " ++ r))
          else ("high", some ("deleting resource: " ++ r))
        | none => ("high", some "deleting resource")
      else if ocMutatingVerbs.contains verb then
        match p.resourceType with
        | some r =>
          match ["critical", "high", "medium", "low"].find?
              (fun lv => (ocRiskSet lv).contains r) with
          | some lv => (lv, some (verb ++ " on " ++ lv ++ "-risk resource: " ++ r))
          | none => ("medium", some ("mutating verb: " ++ verb))
        | none => ("medium", some ("mutating verb: " ++ verb))
      else ("safe", none)

/-- Source `ManifestResourceInfo` as produced by `_inspect_manifest`. -/
structure ManifestInfo where
  kind : String
  name : Option String
  nspace : Option String
  securityFields : List String
  error : Option String
deriving Repr, DecidableEq

/-- Head pattern `^\s*cat\s+([^\s|]+)\s*\|` of `_inspect_pipe_source`. -/
def catPipeMatch (l : List Char) : Option String :=
  let l1 := l.dropWhile pyWs
  if "cat".data.isPrefixOf l1 then
    match l1.drop 3 with
    | d :: rest =>
      if pyWs d then
        let rest2 := rest.dropWhile pyWs
        let fn := rest2.takeWhile (fun c => !(pyWs c || c = '|'))
        if fn.isEmpty then none
        else
          match (rest2.dropWhile (fun c => !(pyWs c || c = '|'))).dropWhile pyWs with
          | '|' :: _ => some (String.mk fn)
          | _ => none
      else none
    | [] => none
  else none

/-- Search `<\s*([^\s<>|]+)` of `_inspect_pipe_source` (one fuel per
consumed character). -/
def redirSourceAux : Nat → List Char → Option String
  | 0, _ => none
  | _ + 1, [] => none
  | f + 1, c :: rest =>
    if c = '<' then
      let rest2 := rest.dropWhile pyWs
      let fn := rest2.takeWhile (fun d => !(pyWs d || d = '<' || d = '>' || d = '|'))
      if fn.isEmpty then redirSourceAux f rest else some (String.mk fn)
    else redirSourceAux f rest

/-- Source `_inspect_pipe_source`. -/
def inspect_pipe_source (cmd : String) : Option String :=
  match catPipeMatch cmd.data with
  | some f => some f
  | none => redirSourceAux (cmd.data.length + 1) cmd.data

/-- Manifest risk accumulation loop of `_check_oc_introspection`. -/
def manifestRiskStep (acc : String × Option String) (info : ManifestInfo) :
    String × Option String :=
  let kind := lowerS info.kind
  let acc1 :=
    if !info.securityFields.isEmpty &&
        (acc.1 = "safe" || acc.1 = "low" || acc.1 = "medium") then
      ("high", some ("manifest contains security fields: " ++
        joinWith ", " info.securityFields))
    else acc
  match ["critical", "high", "medium", "low"].find?
      (fun lv => (ocRiskSet lv).contains kind) with
  | some lv =>
    if riskOrder lv > riskOrder acc1.1 then
      (lv, match acc1.2 with
        | some r => some r
        | none => some ("manifest defines " ++ lv ++ "-risk resource: " ++ kind))
    else acc1
  | none => acc1

/-- Manifest rows consulted by `_check_oc_introspection`: from the `-f`
filename if given, else from a pipe/redirect source. -/
def ocManifestInfo (mf : String → List ManifestInfo) (cmd : String) (parsed : OcParsed) :
    List ManifestInfo :=
  match (match parsed.filename with
         | some f => some f
         | none => inspect_pipe_source cmd) with
  | some f => mf f
  | none => []

/-- Combined risk of `_check_oc_introspection`: the command's own risk
and the manifest's risk, the higher winning; the reason prefers the
command's own. -/
def ocCombined (mf : String → List ManifestInfo) (cmd : String) (parsed : OcParsed) :
    String × Option String :=
  let (riskLevel, reason) := classify_oc_risk (some parsed)
  let (manifestRisk, manifestReason) :=
    (ocManifestInfo mf cmd parsed).foldl manifestRiskStep ("safe", none)
  (if riskOrder riskLevel ≥ riskOrder manifestRisk then riskLevel else manifestRisk,
   match reason with | some r => some r | none => manifestReason)

/-- Detail string of `_check_oc_introspection`'s decision: the combined
reason (or a generic one), the first five manifest resources, and any
manifest warnings, joined with `"; "`. -/
def ocDetail (mf : String → List ManifestInfo) (cmd : String) (parsed : OcParsed) : String :=
  let manifestInfo := ocManifestInfo mf cmd parsed
  let p1 := match (ocCombined mf cmd parsed).2 with
    | some r => if r = "" then (ocCombined mf cmd parsed).1 ++ "-risk operation" else r
    | none => (ocCombined mf cmd parsed).1 ++ "-risk operation"
  let resources := (manifestInfo.filter (fun i => i.error = none ||
      i.error = some "")).map
    (fun i => i.kind ++ "/" ++ (match i.name with | some n => n | none => "None"))
  let errors := (manifestInfo.filterMap (fun i => i.error)).filter (fun e => e ≠ "")
  joinWith "; " ([p1] ++
    (if !manifestInfo.isEmpty && !resources.isEmpty then
      ["Resources: " ++ joinWith ", " (resources.take 5)] else []) ++
    (if !manifestInfo.isEmpty && !errors.isEmpty then
      ["Warnings: " ++ joinWith ", " errors] else []))

/-- Source `_check_oc_introspection`, with manifest-file inspection
abstracted as `mf` (the pure content of `_inspect_manifest`, which reads
the file system). -/
def check_oc_introspection (mf : String → List ManifestInfo) (cmd : String) :
    Option GuardExit :=
  match parse_oc_command cmd with
  | none => none
  | some parsed =>
    let combinedRisk := (ocCombined mf cmd parsed).1
    if combinedRisk = "safe" then none
    else if combinedRisk = "critical" || combinedRisk = "high" || combinedRisk = "medium" then
      some ⟨"oc/kubectl " ++ combinedRisk ++ "-risk: " ++ ocDetail mf cmd parsed, "ask",
        some ("oc-" ++ combinedRisk), some cmd⟩
    else none

/-! ## Fetch/URL guard with audit logging -/

/-- One row of the `events` table, as far as the claims observe it. -/
structure LogRow where
  category : String
  action : String
  rule : Option String
  command : Option String
deriving Repr, DecidableEq

/-- Source `_LOG_ACTION_FOR.get(action, action)`. -/
def logActionFor (action : String) : String :=
  if action = "ask" then "asked" else if action = "block" then "blocked"
  else if action = "allow" then "allowed" else action

/-- Source `_log_event` verbosity filter: the rows actually appended for
one logging call at the given `GUARD_LOG_LEVEL`. -/
def logEvent (level : String) (row : LogRow) : List LogRow :=
  if level = "off" then []
  else if level = "actions" && row.action = "allowed" then []
  else [row]

/-- Source `_check_url_rules`. -/
def check_url_rules (url : String) : Option (String × String × String) :=
  AUTH_URL_RULES.findSome? fun r =>
    if reSearch r.pattern url then some (r.name, r.guidance, r.action) else none

/-- Bypass marker `(?:^|\s)ALLOW_FETCH=1(?:\s|$)`. -/
def allowFetchRE : RE :=
  reSeq [bndStart, reStr "ALLOW_FETCH=1", RE.alt (RE.cls pyWs) RE.eos]

/-- Fetch-command head `^\s*(curl|wget)\b`. -/
def curlWgetRE : RE :=
  reSeq [RE.bos, wsStar, RE.alt (reStr "curl") (reStr "wget"), RE.wb]

/-- Suffix appended to URL-rule guidance in `_check_fetch_command`. -/
def allowFetchHint : String :=
  "\nIf you\x27ve confirmed raw fetch is appropriate, prefix with `ALLOW_FETCH=1`."

/-- URL loop of `_check_fetch_command`: log and exit at the first URL
matching a rule, logging earlier URLs as allowed. -/
def fetchLoop (level : String) (cmd : String) : List String → Option GuardExit × List LogRow
  | [] => (none, [])
  | url :: rest =>
    match check_url_rules url with
    | some (name, guidance, action) =>
      (some ⟨guidance ++ allowFetchHint, action, some name, some cmd⟩,
       logEvent level ⟨"url", logActionFor action, some name, some url⟩)
    | none =>
      let (dec, logs) := fetchLoop level cmd rest
      (dec, logEvent level ⟨"url", "allowed", none, some url⟩ ++ logs)

/-- Source `_check_fetch_command`: returns (was it a curl/wget command,
the decision it exited with if any, the URL audit rows written). -/
def check_fetch_command (level : String) (cmd : String) :
    Bool × Option GuardExit × List LogRow :=
  let normalized := stripEnvVars cmd
  if !reMatch0 curlWgetRE normalized then (false, none, [])
  else if reSearch allowFetchRE cmd then
    (true, none,
      (extract_urls cmd).flatMap fun url => logEvent level ⟨"url", "bypassed", none, some url⟩)
  else
    let (dec, logs) := fetchLoop level cmd (extract_urls cmd)
    (true, dec, logs)

/-! ## Trust store and decision finalization -/

/-- Scope of a stored trust entry.  Rows are only ever created by
`_add_trust`, whose CLI restricts scope to these two values. -/
inductive TrustScope where
  | session : TrustScope
  | always : TrustScope
deriving Repr, DecidableEq

/-- Source `TrustEntry` (a `trusted_rules` row). -/
structure TrustEntry where
  ruleName : String
  matchPattern : Option String
  scope : TrustScope
  sessionId : Option String
deriving Repr, DecidableEq

/-- Python truthiness of an optional string. -/
def optTruthy : Option String → Bool
  | some s => s ≠ ""
  | none => false

/-- Source `_check_trust`: any row for the rule whose scope admits this
session and whose match substring (if present, and if the subject is
present) occurs case-insensitively in the subject. -/
def check_trust (entries : List TrustEntry) (ruleName : String)
    (command : Option String) (sessionId : Option String) : Bool :=
  (entries.filter (fun e => e.ruleName = ruleName)).any fun e =>
    !(e.scope = TrustScope.session && e.sessionId ≠ sessionId) &&
    !(optTruthy e.matchPattern && optTruthy command &&
      !inStr (lowerS (e.matchPattern.getD "")) (lowerS (command.getD "")))

/-- Terminal behaviour of one invocation: either guidance on stderr with
exit code 2 (block), or a `hookSpecificOutput` JSON decision with exit
code 0 (allow / ask). -/
inductive Outcome where
  | stderrExit2 (msg : String) : Outcome
  | jsonExit0 (decision : String) (reason : String) : Outcome
deriving Repr, DecidableEq

/-- Trust hint appended to ask reasons. -/
def trustHint (ruleName : String) (sessionId : Option String) : String :=
  let sidHint := match sessionId with
    | some sid => if sid = "" then "" else " --session-id " ++ sid
    | none => ""
  "To trust: /dev-guard trust add " ++ ruleName ++
    " [--match <pattern>] [--scope session" ++ sidHint ++ "|--scope always]"

/-- Enhanced ask reason built by `_exit_with_decision`. -/
def enhancedReason (e : GuardExit) (sessionId : Option String) : String :=
  let p1 := match e.ruleName with
    | some n => if n = "" then e.guidance else "[" ++ n ++ "] " ++ e.guidance
    | none => e.guidance
  let p2 := match e.matched with
    | some m => if m = "" then [] else ["Matched: " ++ m]
    | none => []
  let p3 := match e.ruleName with
    | some n => if n = "" then [] else [trustHint n sessionId]
    | none => []
  joinWith "\n" ([p1] ++ p2 ++ p3)

/-- Source `_exit_with_decision`: allow and ask produce JSON decisions
with exit 0 (ask consults trust first); anything else — including
unrecognized actions — blocks with guidance on stderr and exit 2. -/
def exit_with_decision (trust : List TrustEntry) (sessionId : Option String)
    (e : GuardExit) : Outcome :=
  if e.action = "allow" then Outcome.jsonExit0 "allow" e.guidance
  else if e.action = "ask" then
    if (match e.ruleName with
        | some n => n ≠ "" && check_trust trust n e.matched sessionId
        | none => false) then
      Outcome.jsonExit0 "allow"
        (match e.ruleName with
         | some n => if n = "" then "[trusted] " ++ e.guidance
                     else "[trusted] [" ++ n ++ "] " ++ e.guidance
         | none => "[trusted] " ++ e.guidance)
    else Outcome.jsonExit0 "ask" (enhancedReason e sessionId)
  else
    Outcome.stderrExit2
      (match e.ruleName with
       | some n => if n = "" then e.guidance else "[" ++ n ++ "] " ++ e.guidance
       | none => e.guidance)

/-! ## Per-subcommand analysis and the dispatcher -/

/-- Python slice `s[:n]`. -/
def strTake (n : Nat) (s : String) : String := String.mk (s.data.take n)

/-- Message printed when a `bash -c` wrapper is blocked (an f-string). -/
def bashCWrapperMsg (inner : String) : String :=
  "Run the command directly without the `bash -c` wrapper — it causes a permission prompt. Just use: `" ++ inner ++ "`"

/-- Guidance of the `process-substitution` block. -/
def processSubstMsg : String :=
  "Process substitution `<(...)` triggers a Claude Code permission prompt. Run each command separately and diff the output files instead:\n  cmd1 > /tmp/a.txt && cmd2 > /tmp/b.txt && diff /tmp/a.txt /tmp/b.txt"

/-- Guidance of the `multiline-python-c` block. -/
def multiPyMsg : String :=
  "Multiline `python -c` triggers a Claude Code permission prompt (inline flags hit the built-in argument validator). Write the code to a file and run it with `uv run python3 <file>` instead."

/-- Head pattern `^\s*(?:uv\s+run\s+)?python[3]?\s+-c\s+`. -/
def multilinePythonRE : RE :=
  reSeq [RE.bos, wsStar, reOpt (reSeq [reStr "uv", wsPlus, reStr "run", wsPlus]),
    reStr "python", reOpt (RE.lit '3'), wsPlus, reStr "-c", wsPlus]

/-- Head pattern `^\s*(oc|kubectl)\b` of the oc-introspection dispatch. -/
def ocHeadRE : RE :=
  reSeq [RE.bos, wsStar, RE.alt (reStr "oc") (reStr "kubectl"), RE.wb]

/-- Inner-subcommand loop of the `bash -c` branch of `_check_subcmd`. -/
def innerLoop (branch? : Option String) : List String → Bool → Option GuardExit × Bool
  | [], fs => (none, fs)
  | s :: rest, fs =>
    let fs := fs || reSearch fetchPattern s
    match checkRules branch? s fs none with
    | some e => (some e, fs)
    | none => innerLoop branch? rest fs

/-- Subshell loop of `_check_subcmd`.  (The dev-guard version checks
rules and pipes on each subshell body; fetch sightings accumulate.) -/
def subshellLoop (branch? : Option String) : List String → Bool → Option GuardExit × Bool
  | [], fs => (none, fs)
  | inner :: rest, fs =>
    let fs := fs || reSearch fetchPattern inner
    match checkRules branch? inner fs none with
    | some e => (some e, fs)
    | none =>
      match checkPipes branch? inner fs with
      | some e => (some e, fs)
      | none => subshellLoop branch? rest fs

/-- Tail of `_check_subcmd` after the `bash -c` branch: process
substitution, multiline `python -c`, pipe segments, subshells, the full
subcommand, then oc introspection. -/
def checkSubcmdMain (branch? : Option String) (mf : String → List ManifestInfo)
    (sub : String) (fs : Bool) : Option GuardExit × Bool :=
  if reSearch (reStr "<(") sub then
    (some ⟨processSubstMsg, "block", some "process-substitution", some (strTake 200 sub)⟩, fs)
  else if reMatch0 multilinePythonRE sub && inStr "\n" sub then
    (some ⟨multiPyMsg, "block", some "multiline-python-c", some (strTake 200 sub)⟩, fs)
  else
    match checkPipes branch? sub fs with
    | some e => (some e, fs)
    | none =>
      match subshellLoop branch? (extract_subshells sub) fs with
      | (some e, fs2) => (some e, fs2)
      | (none, fs2) =>
        match checkRules branch? sub fs2 none with
        | some e => (some e, fs2)
        | none =>
          if reMatch0 ocHeadRE (stripEnvVars (strip_shell_keyword sub)) then
            (check_oc_introspection mf sub, fs2)
          else (none, fs2)

/-- Source `_check_subcmd`: returns the decision (if the function exited)
and the updated `fetch_seen` flag. -/
def checkSubcmd (branch? : Option String) (mf : String → List ManifestInfo)
    (sub : String) (fsIn : Bool) : Option GuardExit × Bool :=
  let fs := fsIn || reSearch fetchPattern sub
  match extract_bash_c sub with
  | some inner =>
    if inner ≠ "" then
      match innerLoop branch? (split_commands inner) fs with
      | (some e, fs2) => (some e, fs2)
      | (none, fs2) => (some ⟨bashCWrapperMsg inner, "block", none, none⟩, fs2)
    else checkSubcmdMain branch? mf sub fs
  | none => checkSubcmdMain branch? mf sub fs

/-- Subcommand fold of `_handle_bash_command`, threading `fetch_seen`. -/
def chainEval (branch? : Option String) (mf : String → List ManifestInfo) :
    List String → Bool → Option GuardExit
  | [], _ => none
  | s :: rest, fs =>
    match checkSubcmd branch? mf s fs with
    | (some e, _) => some e
    | (none, fs2) => chainEval branch? mf rest fs2

/-- Terminal behaviour of `_handle_bash_command`. -/
inductive BashOutcome where
  | passThrough : BashOutcome
  | tooLarge : BashOutcome
  | exitWith (e : GuardExit) : BashOutcome
deriving Repr, DecidableEq

/-- The full-bypass token. -/
def bypassToken : String := "GUARD_BYPASS=1 "

/-- Deny-rule scan of the bypass branch: each subcommand is stripped of
shell keywords and env assignments and checked against the git deny
rules only. -/
def bypassDenyScan : List String → Option GuardExit
  | [] => none
  | sub :: rest =>
    let stripped := stripEnvVars (strip_shell_keyword sub)
    match GIT_DENY_RULES.find? (fun r => r.check stripped) with
    | some r => some ⟨r.message, "block", some r.name, some stripped⟩
    | none => bypassDenyScan rest

/-- Source `_handle_bash_command` (decision component; audit logging and
the Makefile tip are side channels that never change the outcome). -/
def handleBash (branch? : Option String) (mf : String → List ManifestInfo)
    (level : String) (command : String) : BashOutcome :=
  if command = "" then BashOutcome.passThrough
  else if strLen command > 100000 then BashOutcome.tooLarge
  else if pyStartsWith command bypassToken then
    let realCmd := pyDrop command (strLen bypassToken)
    match (check_fetch_command level realCmd).2.1 with
    | some e => BashOutcome.exitWith e
    | none =>
      match bypassDenyScan (split_commands realCmd) with
      | some e => BashOutcome.exitWith e
      | none => BashOutcome.passThrough
  else
    match (check_fetch_command level command).2.1 with
    | some e => BashOutcome.exitWith e
    | none =>
      match chainEval branch? mf (split_commands command) false with
      | some e => BashOutcome.exitWith e
      | none => BashOutcome.passThrough

/-! ## Hook input handling (`_parse_hook_input` + the Bash tail of `main`) -/

/-- What arrived on stdin, as far as `_parse_hook_input` distinguishes:
more than `_MAX_INPUT_BYTES`, unparseable JSON, or a parsed PreToolUse
Bash event carrying a command string. -/
inductive HookStdin where
  | tooBig : HookStdin
  | badJson : HookStdin
  | parsedBash (command : String) : HookStdin

/-- Terminal behaviour of the whole invocation for those inputs. -/
inductive HookOutcome where
  | failOpen : HookOutcome
  | bash (o : BashOutcome) : HookOutcome
deriving Repr, DecidableEq

/-- Source `_parse_hook_input` composed with the Bash branch of `main`:
oversized stdin and malformed JSON exit 0 with no decision; a parsed
Bash event strips the command and runs `_handle_bash_command`. -/
def processHookInput (branch? : Option String) (mf : String → List ManifestInfo)
    (level : String) : HookStdin → HookOutcome
  | HookStdin.tooBig => HookOutcome.failOpen
  | HookStdin.badJson => HookOutcome.failOpen
  | HookStdin.parsedBash c => HookOutcome.bash (handleBash branch? mf level (pyStripS c))

/-! ## Statement-level auxiliaries

These are defined in terms of the embedded source functions and are used
only to state properties (instrumentation of the splitter, the skip-free
rule scan, the expected audit rows). -/

/-- Manifest inspector of a command with no readable manifest files. -/
def noManifest : String → List ManifestInfo := fun _ => []

/-- Rejoin segments with delimiters: `s₀ ++ d₀ ++ s₁ ++ d₁ ++ …`. -/
def interleave : List (List Char) → List (List Char) → List Char
  | [], _ => []
  | s :: _, [] => s
  | s :: segs, d :: ds => s ++ d ++ interleave segs ds

/-- Instrumented splitter: same scan as `splitCore` but returning the raw
segments (before stripping) and the delimiter strings between them. -/
def splitICore (d : DelimFn) :
    Nat → List Char → Bool → Bool → List Char → List (List Char) × List (List Char)
  | 0, _, _, _, cur => ([cur], [])
  | _ + 1, [], _, _, cur => ([cur], [])
  | f + 1, c :: rest, inS, inD, cur =>
    if c = squote && !inD then splitICore d f rest (!inS) inD (cur ++ [c])
    else if c = dquote && !inS then splitICore d f rest inS (!inD) (cur ++ [c])
    else if !inS && !inD then
      match d (c :: rest) cur with
      | some (n, _) =>
        let r := splitICore d f (rest.drop (n - 1)) inS inD []
        (cur :: r.1, ((c :: rest).take n) :: r.2)
      | none => splitICore d f rest inS inD (cur ++ [c])
    else splitICore d f rest inS inD (cur ++ [c])

/-- Does the scan meet no unquoted command delimiter? -/
def noUnquotedDelim : List Char → Bool → Bool → Bool
  | [], _, _ => true
  | c :: rest, inS, inD =>
    if c = squote && !inD then noUnquotedDelim rest (!inS) inD
    else if c = dquote && !inS then noUnquotedDelim rest inS (!inD)
    else if !inS && !inD then
      match cmdDelim (c :: rest) [] with
      | some _ => false
      | none => noUnquotedDelim rest inS inD
    else noUnquotedDelim rest inS inD

/-- Does the text contain a backslash immediately followed by a newline
(the shell line-continuation shape)? -/
def hasBsNl : List Char → Bool
  | a :: b :: rest => (a = bslash && b = '\n') || hasBsNl (b :: rest)
  | _ => false

/-- Skip-free scan of an arbitrary rule table (the rule half of
`_check_rules` with no `skip_rules`), used to state what the
pipe-exemption skip set amounts to. -/
def scanRules (rules : List CommandRule) (cmd normalized : String) : Option GuardExit :=
  rules.findSome? fun r =>
    let target := if r.anchored then normalized else cmd
    if reSearch r.pattern target then
      if (match r.exception with | some ex => reSearch ex cmd | none => false) then none
      else some ⟨r.guidance, r.action, some r.name, some cmd⟩
    else none

/-- Audit rows the fetch loop is expected to write before filtering: one
row per examined URL carrying that URL and its outcome, stopping at the
first rule match. -/
def fetchExpectedRows : List String → List LogRow
  | [] => []
  | url :: rest =>
    match check_url_rules url with
    | some (n, _, a) => [⟨"url", logActionFor a, some n, some url⟩]
    | none => ⟨"url", "allowed", none, some url⟩ :: fetchExpectedRows rest


/-! # Claim theorems -/

/-! ## C1: git deny rules block with the FORBIDDEN keyword -/

/-- C1 (amended): for every command that passes the git-command gate
`(^|\s)git\s` and matches a git deny rule, `check_git_safety` exits with
a block decision carrying the first matching rule's message; every deny
rule's message except `branch-no-base`'s contains the fixed keyword
"FORBIDDEN". -/
theorem git_deny_first_match_blocks (branch? : Option String) (cmd : String)
    (fs : Bool) (n m : String)
    (hg : gitGate cmd = true)
    (hfind : (GIT_DENY_RULES.find? (fun r => r.check cmd)).map (fun r => (r.name, r.message)) =
      some (n, m)) :
    check_git_safety branch? cmd fs = some ⟨m, "block", some n, some cmd⟩ ∧
    (n = "branch-no-base" ∨ inStr "FORBIDDEN" m = true) := by
  obtain ⟨r, hr, hnm⟩ : ∃ r, GIT_DENY_RULES.find? (fun r => r.check cmd) = some r ∧
      (r.name, r.message) = (n, m) := by
    cases h : GIT_DENY_RULES.find? (fun r => r.check cmd) with
    | none => rw [h] at hfind; simp at hfind
    | some r => exact ⟨r, rfl, by rw [h] at hfind; simpa using hfind⟩
  have hmem := List.mem_of_find?_eq_some hr
  obtain ⟨hname, hmsg⟩ : r.name = n ∧ r.message = m := by
    simpa [Prod.ext_iff] using hnm
  have hprop : ∀ x ∈ GIT_DENY_RULES, x.name = "branch-no-base" ∨
      inStr "FORBIDDEN" x.message = true := by decide
  constructor
  · rw [← hname, ← hmsg]
    simp [check_git_safety, hg, hr]
  · rw [← hname, ← hmsg]
    exact hprop r hmem

/-- Witness for C1: `git reset --hard` is blocked with the `reset-hard`
message, which contains "FORBIDDEN". -/
theorem git_deny_first_match_blocks_witness :
    check_git_safety none "git reset --hard" false =
      some ⟨"git reset --hard is FORBIDDEN. Use \x27git reset --mixed\x27 or \x27git stash\x27 to preserve changes.",
        "block", some "reset-hard", some "git reset --hard"⟩ := by
  exact (git_deny_first_match_blocks none "git reset --hard" false "reset-hard"
    "git reset --hard is FORBIDDEN. Use \x27git reset --mixed\x27 or \x27git stash\x27 to preserve changes."
    (by decide) (by decide)).1

/-- Counterexample to C1 as stated: `git switch -c foo` satisfies the
`branch-no-base` deny predicate and is blocked, but the emitted guidance
does not contain "FORBIDDEN"; moreover `legit reset --hard` satisfies
the `reset-hard` predicate yet produces no block at all, because the
`(^|\s)git\s` gate fails. -/
theorem branch_no_base_message_lacks_keyword :
    isBranchNoBase "git switch -c foo" = true ∧
    check_git_safety none "git switch -c foo" false =
      some ⟨"Branch creation without a start-point defaults to HEAD (which may be stale or another feature branch). Specify a base: git switch -c <name> upstream/main",
        "block", some "branch-no-base", some "git switch -c foo"⟩ ∧
    inStr "FORBIDDEN" "Branch creation without a start-point defaults to HEAD (which may be stale or another feature branch). Specify a base: git switch -c <name> upstream/main" = false ∧
    GIT_DENY_RULES.any (fun r => r.check "legit reset --hard") = true ∧
    check_git_safety none "legit reset --hard" false = none := by
  decide


/-! ## Shared helper lemmas -/

theorem append_left_ne_empty (s t : String) (h : s.data ≠ []) : s ++ t ≠ "" := by
  intro heq
  have hd : s.data ++ t.data = [] := by rw [← String.data_append, heq]
  exact h (List.append_eq_nil.mp hd).1

theorem check_git_safety_cases (b : Option String) (cmd : String) (fs : Bool) (e : GuardExit)
    (h : check_git_safety b cmd fs = some e) :
    (∃ r ∈ GIT_DENY_RULES, e = ⟨r.message, "block", some r.name, some cmd⟩) ∨
    (e.ruleName = some "commit-to-main" ∧ e.action = "block") ∨
    (e = ⟨branchNeedsFetchMsg, "ask", some "branch-needs-fetch", some cmd⟩ ∧ fs = false) ∨
    (∃ r ∈ GIT_ASK_RULES, e = ⟨r.message, "ask", some r.name, some cmd⟩) := by
  unfold check_git_safety at h
  split at h
  · exact absurd h (by simp)
  · split at h
    next r hr =>
      left
      exact ⟨r, List.mem_of_find?_eq_some hr, (Option.some.inj h).symm⟩
    next =>
      split at h
      · right; left
        rw [← Option.some.inj h]
        exact ⟨rfl, rfl⟩
      · split at h
        next bn sp heq =>
          split at h
          next hcond =>
            right; right; left
            refine ⟨(Option.some.inj h).symm, ?_⟩
            have := (Bool.and_eq_true _ _).mp hcond
            simpa using this.2
          next =>
            split at h
            next r hr =>
              right; right; right
              exact ⟨r, List.mem_of_find?_eq_some hr, (Option.some.inj h).symm⟩
            next => exact absurd h (by simp)
        next =>
          split at h
          next r hr =>
            right; right; right
            exact ⟨r, List.mem_of_find?_eq_some hr, (Option.some.inj h).symm⟩
          next => exact absurd h (by simp)

theorem oc_name_ne_bnf (cr : String) : ("oc-" ++ cr : String) ≠ "branch-needs-fetch" := by
  intro h
  have hd := congrArg String.data h
  rw [String.data_append] at hd
  simp at hd

theorem oc_result_name (mf : String → List ManifestInfo) (cmd : String) (e : GuardExit)
    (h : check_oc_introspection mf cmd = some e) :
    ∃ cr, e.ruleName = some ("oc-" ++ cr) := by
  unfold check_oc_introspection at h
  split at h
  · exact absurd h (by simp)
  · dsimp only at h
    split at h
    · exact absurd h (by simp)
    · split at h
      · exact ⟨_, by rw [← Option.some.inj h]⟩
      · exact absurd h (by simp)

theorem gitSafety_true_no_bnf (b : Option String) (cmd : String) (e : GuardExit)
    (h : check_git_safety b cmd true = some e) :
    e.ruleName ≠ some "branch-needs-fetch" := by
  rcases check_git_safety_cases b cmd true e h with ⟨r, hr, he⟩ | ⟨hn, _⟩ | ⟨_, hfs⟩ | ⟨r, hr, he⟩
  · subst he
    have hnames : ∀ x ∈ GIT_DENY_RULES, x.name ≠ "branch-needs-fetch" := by decide
    simpa using hnames r hr
  · rw [hn]; simp
  · exact absurd hfs (by simp)
  · subst he
    have hnames : ∀ x ∈ GIT_ASK_RULES, x.name ≠ "branch-needs-fetch" := by decide
    simpa using hnames r hr

theorem checkRules_sources (b : Option String) (cmd : String) (fs : Bool)
    (sk : Option (List String)) (e : GuardExit) (h : checkRules b cmd fs sk = some e) :
    check_git_safety b (strip_shell_keyword cmd) fs = some e ∨
    ∃ r ∈ RULES, (∀ l, sk = some l → l.contains r.name = false) ∧
      e = ⟨r.guidance, r.action, some r.name, some (strip_shell_keyword cmd)⟩ := by
  unfold checkRules at h
  dsimp only at h
  split at h
  · next e2 he =>
      left
      rw [he, Option.some.inj h]
  · right
    obtain ⟨r, hr, hfr⟩ := List.exists_of_findSome?_eq_some h
    refine ⟨r, hr, ?_⟩
    split at hfr
    · exact absurd hfr (by simp)
    · next hsk =>
        have he : e = ⟨r.guidance, r.action, some r.name, some (strip_shell_keyword cmd)⟩ := by
          repeat' split at hfr
          all_goals
            first
              | exact (Option.some.inj hfr).symm
              | exact absurd hfr (by simp)
        refine ⟨?_, he⟩
        intro l hl
        subst hl
        simpa using hsk

theorem checkRules_true_no_bnf (b : Option String) (cmd : String)
    (sk : Option (List String)) (e : GuardExit) (h : checkRules b cmd true sk = some e) :
    e.ruleName ≠ some "branch-needs-fetch" := by
  rcases checkRules_sources b cmd true sk e h with hg | ⟨r, hr, _, he⟩
  · exact gitSafety_true_no_bnf b _ e hg
  · subst he
    have hnames : ∀ x ∈ RULES, x.name ≠ "branch-needs-fetch" := by decide
    simpa using hnames r hr

theorem checkPipes_true_no_bnf (b : Option String) (cmd : String) (e : GuardExit)
    (h : checkPipes b cmd true = some e) : e.ruleName ≠ some "branch-needs-fetch" := by
  unfold checkPipes at h
  split at h
  · obtain ⟨seg, _, hseg⟩ := List.exists_of_findSome?_eq_some h
    exact checkRules_true_no_bnf b seg _ e hseg
  · exact absurd h (by simp)

theorem innerLoop_true_flag (b : Option String) (subs : List String) :
    (innerLoop b subs true).2 = true := by
  induction subs with
  | nil => rfl
  | cons s rest ih =>
    unfold innerLoop
    simp only [Bool.true_or]
    split
    · rfl
    · exact ih

theorem innerLoop_true_no_bnf (b : Option String) (subs : List String) (e : GuardExit)
    (h : (innerLoop b subs true).1 = some e) : e.ruleName ≠ some "branch-needs-fetch" := by
  induction subs with
  | nil => exact absurd h (by simp [innerLoop])
  | cons s rest ih =>
    unfold innerLoop at h
    simp only [Bool.true_or] at h
    split at h
    · next e2 he =>
      simp at h
      rw [← h]
      exact checkRules_true_no_bnf b s none e2 he
    · exact ih h

theorem subshellLoop_true_flag (b : Option String) (subs : List String) :
    (subshellLoop b subs true).2 = true := by
  induction subs with
  | nil => rfl
  | cons s rest ih =>
    unfold subshellLoop
    simp only [Bool.true_or]
    split
    · rfl
    · split
      · rfl
      · exact ih

theorem subshellLoop_true_no_bnf (b : Option String) (subs : List String) (e : GuardExit)
    (h : (subshellLoop b subs true).1 = some e) : e.ruleName ≠ some "branch-needs-fetch" := by
  induction subs with
  | nil => exact absurd h (by simp [subshellLoop])
  | cons s rest ih =>
    unfold subshellLoop at h
    simp only [Bool.true_or] at h
    split at h
    · next e2 he =>
      simp at h
      rw [← h]
      exact checkRules_true_no_bnf b s none e2 he
    · split at h
      · next e2 he =>
        simp at h
        rw [← h]
        exact checkPipes_true_no_bnf b s e2 he
      · exact ih h

theorem checkSubcmdMain_true_flag (b : Option String) (mf : String → List ManifestInfo)
    (sub : String) : (checkSubcmdMain b mf sub true).2 = true := by
  unfold checkSubcmdMain
  split
  · rfl
  · split
    · rfl
    · split
      · rfl
      · split
        · next e2 fs2 heq =>
          have := subshellLoop_true_flag b (extract_subshells sub)
          rw [heq] at this
          exact this
        · next fs2 heq =>
          have := subshellLoop_true_flag b (extract_subshells sub)
          rw [heq] at this
          split
          · exact this
          · split <;> exact this

theorem checkSubcmdMain_true_no_bnf (b : Option String) (mf : String → List ManifestInfo)
    (sub : String) (e : GuardExit) (h : (checkSubcmdMain b mf sub true).1 = some e) :
    e.ruleName ≠ some "branch-needs-fetch" := by
  unfold checkSubcmdMain at h
  split at h
  · simp at h; rw [← h]; simp
  · split at h
    · simp at h; rw [← h]; simp
    · split at h
      · next e2 he => simp at h; rw [← h]; exact checkPipes_true_no_bnf b sub e2 he
      · split at h
        · next e2 fs2 heq =>
          simp at h
          rw [← h]
          exact subshellLoop_true_no_bnf b (extract_subshells sub) e2 (by rw [heq])
        · next fs2 heq =>
          have hfs2 : fs2 = true := by
            have := subshellLoop_true_flag b (extract_subshells sub)
            rw [heq] at this
            exact this
          subst hfs2
          split at h
          · next e2 he => simp at h; rw [← h]; exact checkRules_true_no_bnf b sub none e2 he
          · split at h
            · obtain ⟨cr, hcr⟩ := oc_result_name mf sub e (by simpa using h)
              rw [hcr]
              intro hx
              exact oc_name_ne_bnf cr (Option.some.inj hx)
            · exact absurd h (by simp)

theorem checkSubcmd_or_true_flag (b : Option String) (mf : String → List ManifestInfo)
    (sub : String) (fsIn : Bool) (hf : (fsIn || reSearch fetchPattern sub) = true) :
    (checkSubcmd b mf sub fsIn).2 = true := by
  unfold checkSubcmd
  rw [hf]
  dsimp only
  split
  next inner heqbc =>
    split
    · split
      next e2 fs2 heq =>
        have := innerLoop_true_flag b (split_commands inner)
        rw [heq] at this
        exact this
      next fs2 heq =>
        have := innerLoop_true_flag b (split_commands inner)
        rw [heq] at this
        exact this
    · exact checkSubcmdMain_true_flag b mf sub
  next heqbc => exact checkSubcmdMain_true_flag b mf sub

theorem checkSubcmd_or_true_no_bnf (b : Option String) (mf : String → List ManifestInfo)
    (sub : String) (fsIn : Bool) (hf : (fsIn || reSearch fetchPattern sub) = true)
    (e : GuardExit) (h : (checkSubcmd b mf sub fsIn).1 = some e) :
    e.ruleName ≠ some "branch-needs-fetch" := by
  unfold checkSubcmd at h
  rw [hf] at h
  dsimp only at h
  split at h
  next inner heqbc =>
    split at h
    · split at h
      next e2 fs2 heq =>
        simp at h
        rw [← h]
        exact innerLoop_true_no_bnf b (split_commands inner) e2 (by rw [heq])
      next fs2 heq =>
        simp at h
        rw [← h]
        simp
    · exact checkSubcmdMain_true_no_bnf b mf sub e h
  next heqbc => exact checkSubcmdMain_true_no_bnf b mf sub e h

theorem chainEval_true_no_bnf (b : Option String) (mf : String → List ManifestInfo)
    (subs : List String) (e : GuardExit) (h : chainEval b mf subs true = some e) :
    e.ruleName ≠ some "branch-needs-fetch" := by
  induction subs with
  | nil => exact absurd h (by simp [chainEval])
  | cons s rest ih =>
    unfold chainEval at h
    split at h
    next e2 fs2 heq =>
      simp at h
      rw [← h]
      exact checkSubcmd_or_true_no_bnf b mf s true (by simp) e2 (by rw [heq])
    next fs2 heq =>
      have hfs2 : fs2 = true := by
        have := checkSubcmd_or_true_flag b mf s true (by simp)
        rw [heq] at this
        exact this
      subst hfs2
      exact ih h

theorem bnf_decision_iff (b : Option String) (cmd : String) (fs : Bool) :
    check_git_safety b cmd fs =
      some ⟨branchNeedsFetchMsg, "ask", some "branch-needs-fetch", some cmd⟩ ↔
    (gitGate cmd = true ∧
     GIT_DENY_RULES.find? (fun r => r.check cmd) = none ∧
     (gitCommitHead cmd && commitBranchProtected b) = false ∧
     (∃ bn sp, parseBranchCreation cmd = some (bn, some sp) ∧
       safeRemoteRefs.contains sp = true) ∧
     fs = false) := by
  constructor
  · intro h
    unfold check_git_safety at h
    split at h
    · exact absurd h (by simp)
    next hgate =>
      have hg : gitGate cmd = true := by simpa using hgate
      split at h
      next r hr =>
        have := Option.some.inj h
        simp [GuardExit.mk.injEq] at this
      next hd =>
        split at h
        next hcommit =>
          have := Option.some.inj h
          simp [GuardExit.mk.injEq] at this
        next hcommit =>
          have hc : (gitCommitHead cmd && commitBranchProtected b) = false := by
            simpa using hcommit
          split at h
          next bn sp hp =>
            split at h
            next hcond =>
              have h1 := (Bool.and_eq_true _ _).mp hcond
              exact ⟨hg, hd, hc, ⟨bn, sp, hp, h1.1⟩, by simpa using h1.2⟩
            next =>
              split at h
              next r hr =>
                have := Option.some.inj h
                have hnames : ∀ x ∈ GIT_ASK_RULES, x.name ≠ "branch-needs-fetch" := by decide
                have hmem := List.mem_of_find?_eq_some hr
                simp [GuardExit.mk.injEq] at this
                exact absurd this.2 (hnames r hmem)
              next => exact absurd h (by simp)
          next hp =>
            split at h
            next r hr =>
              have := Option.some.inj h
              have hnames : ∀ x ∈ GIT_ASK_RULES, x.name ≠ "branch-needs-fetch" := by decide
              have hmem := List.mem_of_find?_eq_some hr
              simp [GuardExit.mk.injEq] at this
              exact absurd this.2 (hnames r hmem)
            next => exact absurd h (by simp)
  · rintro ⟨hg, hd, hc, ⟨bn, sp, hp, hsp⟩, hfs⟩
    subst hfs
    have hsp2 : sp ∈ safeRemoteRefs := by simpa using hsp
    simp [check_git_safety, hg, hd, hc, hp, hsp, hsp2]


/-! ## C7: oc/kubectl resource-risk classification -/

/-- C7: deleting a critical-sensitivity resource type (without a dry-run
flag) classifies as critical risk; whenever the combined command/manifest
risk is medium or above, `_check_oc_introspection` exits with an ask
decision carrying a nonempty justification, and a combined risk of safe
or low gives no opinion; in particular `oc delete namespace prod` asks,
citing the critical-risk deletion. -/
theorem oc_risk_classifier_asks :
    (∀ p : OcParsed, ∀ r : String, p.verb = some "delete" → p.resourceType = some r →
      (ocRiskSet "critical").contains r = true →
      p.flags.any (fun f => pyStartsWith f "--dry-run") = false →
      classify_oc_risk (some p) = ("critical", some ("deleting critical resource type: " ++ r))) ∧
    (∀ mf : String → List ManifestInfo, ∀ cmd : String, ∀ p : OcParsed,
      parse_oc_command cmd = some p →
      ((ocCombined mf cmd p).1 = "medium" ∨ (ocCombined mf cmd p).1 = "high" ∨
        (ocCombined mf cmd p).1 = "critical") →
      check_oc_introspection mf cmd =
        some ⟨"oc/kubectl " ++ (ocCombined mf cmd p).1 ++ "-risk: " ++ ocDetail mf cmd p, "ask",
          some ("oc-" ++ (ocCombined mf cmd p).1), some cmd⟩ ∧
      "oc/kubectl " ++ (ocCombined mf cmd p).1 ++ "-risk: " ++ ocDetail mf cmd p ≠ "") ∧
    (∀ mf : String → List ManifestInfo, ∀ cmd : String, ∀ p : OcParsed,
      parse_oc_command cmd = some p →
      ((ocCombined mf cmd p).1 = "safe" ∨ (ocCombined mf cmd p).1 = "low") →
      check_oc_introspection mf cmd = none) ∧
    (check_oc_introspection noManifest "oc delete namespace prod" =
      some ⟨"oc/kubectl critical-risk: deleting critical resource type: namespace", "ask",
        some "oc-critical", some "oc delete namespace prod"⟩ ∧
     inStr "critical" "oc/kubectl critical-risk: deleting critical resource type: namespace" = true) := by
  refine ⟨?_, ?_, ?_, by decide⟩
  · intro p r hv hr hc hdry
    have h3 : r ∈ ocRiskSet "critical" := by simpa using hc
    simp [classify_oc_risk, hv, hr, hdry, h3]
    decide
  · intro mf cmd p hp hrisk
    constructor
    · rcases hrisk with h | h | h <;> simp [check_oc_introspection, hp, h]
    · exact append_left_ne_empty "oc/kubectl " _ (by decide)
  · intro mf cmd p hp hrisk
    rcases hrisk with h | h <;> simp [check_oc_introspection, hp, h]

/-- Witness for C7: `oc delete namespace prod` parses to a delete of the
critical resource type `namespace` and classifies as critical. -/
theorem oc_risk_classifier_asks_witness :
    classify_oc_risk (some ⟨"oc", some "delete", some "namespace", none, none, []⟩) =
      ("critical", some ("deleting critical resource type: " ++ "namespace")) :=
  oc_risk_classifier_asks.1 ⟨"oc", some "delete", some "namespace", none, none, []⟩
    "namespace" rfl rfl (by decide) (by decide)

/-! ## C3: the fetch-seen flag and the branch-needs-fetch ask -/

/-- C3 (amended): `check_git_safety` produces the `branch-needs-fetch`
ask exactly when the command passes the git gate, no deny rule matches,
the commit-to-main case does not fire, the command creates a branch from
a designated trusted remote ref, and the fetch-seen flag is false; once
any sub-command matching the fetch pattern has been processed, no later
decision in the chain is a `branch-needs-fetch` ask; the spec's two
concrete chains behave as stated. -/
theorem branch_needs_fetch_flag_semantics :
    (∀ b : Option String, ∀ cmd : String, ∀ fs : Bool,
      check_git_safety b cmd fs =
        some ⟨branchNeedsFetchMsg, "ask", some "branch-needs-fetch", some cmd⟩ ↔
      (gitGate cmd = true ∧
       GIT_DENY_RULES.find? (fun r => r.check cmd) = none ∧
       (gitCommitHead cmd && commitBranchProtected b) = false ∧
       (∃ bn sp, parseBranchCreation cmd = some (bn, some sp) ∧
         safeRemoteRefs.contains sp = true) ∧
       fs = false)) ∧
    (∀ b : Option String, ∀ mf : String → List ManifestInfo, ∀ fetchSub : String,
      ∀ rest : List String, ∀ fs : Bool, ∀ e : GuardExit,
      reSearch fetchPattern fetchSub = true →
      chainEval b mf (fetchSub :: rest) fs = some e →
      e.ruleName ≠ some "branch-needs-fetch") ∧
    (handleBash none noManifest "actions" "git switch -c feat/x upstream/main" =
      BashOutcome.exitWith ⟨branchNeedsFetchMsg, "ask", some "branch-needs-fetch",
        some "git switch -c feat/x upstream/main"⟩) ∧
    (handleBash none noManifest "actions"
      "git fetch upstream main && git switch -c feat/x upstream/main" =
        BashOutcome.passThrough) := by
  refine ⟨bnf_decision_iff, ?_, by decide, by decide⟩
  intro b mf fetchSub rest fs e hfetch h
  unfold chainEval at h
  split at h
  next e2 fs2 heq =>
    simp at h
    rw [← h]
    exact checkSubcmd_or_true_no_bnf b mf fetchSub fs (by rw [hfetch]; simp) e2 (by rw [heq])
  next fs2 heq =>
    have hfs2 : fs2 = true := by
      have h2 := checkSubcmd_or_true_flag b mf fetchSub fs (by rw [hfetch]; simp)
      rw [heq] at h2
      exact h2
    subst hfs2
    exact chainEval_true_no_bnf b mf rest e h


/-- Witness for C3: the spec scenario `git switch -c feat/x upstream/main`
with no prior fetch produces the `branch-needs-fetch` ask. -/
theorem branch_needs_fetch_flag_semantics_witness :
    check_git_safety none "git switch -c feat/x upstream/main" false =
      some ⟨branchNeedsFetchMsg, "ask", some "branch-needs-fetch",
        some "git switch -c feat/x upstream/main"⟩ :=
  (branch_needs_fetch_flag_semantics.1 none "git switch -c feat/x upstream/main" false).mpr
    ⟨by decide, by rfl, by decide,
     ⟨"feat/x", "upstream/main", by decide, by decide⟩, rfl⟩


/-- Counterexample to C3 as stated: `git switch -c feat/x upstream/main
--no-verify` is a branch creation from a trusted remote ref with no fetch
anywhere in the chain, yet it produces no ask at all — the `no-verify`
deny rule blocks it first. -/
theorem no_verify_preempts_branch_needs_fetch :
    parseBranchCreation "git switch -c feat/x upstream/main --no-verify" =
      some ("feat/x", some "upstream/main") ∧
    safeRemoteRefs.contains "upstream/main" = true ∧
    split_commands "git switch -c feat/x upstream/main --no-verify" =
      ["git switch -c feat/x upstream/main --no-verify"] ∧
    reSearch fetchPattern "git switch -c feat/x upstream/main --no-verify" = false ∧
    handleBash none noManifest "actions" "git switch -c feat/x upstream/main --no-verify" =
      BashOutcome.exitWith ⟨"--no-verify flag is FORBIDDEN. Git hooks must run for all commits and pushes.",
        "block", some "no-verify", some "git switch -c feat/x upstream/main --no-verify"⟩ := by
  decide

/-! ## Fetch-guard and bypass-scan lemmas -/

theorem url_rules_all_block (url : String) (n g a : String)
    (h : check_url_rules url = some (n, g, a)) : a = "block" := by
  obtain ⟨r, hr, hfr⟩ := List.exists_of_findSome?_eq_some h
  have hact : ∀ x ∈ AUTH_URL_RULES, x.action = "block" := by decide
  split at hfr
  · have := Option.some.inj hfr
    simp [Prod.ext_iff] at this
    rw [← this.2.2]
    exact hact r hr
  · exact absurd hfr (by simp)

theorem fetchLoop_block (level cmd : String) (urls : List String) (e : GuardExit)
    (h : (fetchLoop level cmd urls).1 = some e) : e.action = "block" := by
  induction urls with
  | nil => exact absurd h (by simp [fetchLoop])
  | cons url rest ih =>
    unfold fetchLoop at h
    split at h
    next n g a hurl =>
      simp at h
      rw [← h]
      exact url_rules_all_block url n g a hurl
    · exact ih (by simpa using h)

theorem fetch_decision_block (level cmd : String) (e : GuardExit)
    (h : (check_fetch_command level cmd).2.1 = some e) : e.action = "block" := by
  unfold check_fetch_command at h
  by_cases hcurl : reMatch0 curlWgetRE (stripEnvVars cmd) = true
  · by_cases haf : reSearch allowFetchRE cmd = true
    · simp [hcurl, haf] at h
    · simp [hcurl, haf] at h
      exact fetchLoop_block level cmd (extract_urls cmd) e h
  · simp [hcurl] at h

theorem bypassDenyScan_block (subs : List String) (e : GuardExit)
    (h : bypassDenyScan subs = some e) : e.action = "block" := by
  induction subs with
  | nil => exact absurd h (by simp [bypassDenyScan])
  | cons s rest ih =>
    unfold bypassDenyScan at h
    dsimp only at h
    split at h
    next r hr =>
      simp at h
      rw [← h]
    · exact ih h

theorem bypassDenyScan_complete (subs : List String)
    (hex : ∃ sub ∈ subs, ∃ r ∈ GIT_DENY_RULES,
      r.check (stripEnvVars (strip_shell_keyword sub)) = true) :
    ∃ e, bypassDenyScan subs = some e ∧ e.action = "block" := by
  induction subs with
  | nil => simp at hex
  | cons s rest ih =>
    unfold bypassDenyScan
    dsimp only
    split
    next r hr => exact ⟨_, rfl, rfl⟩
    next hnone =>
      rcases hex with ⟨sub, hsub, r, hrmem, hrchk⟩
      rcases List.mem_cons.mp hsub with heq | hmem
      · subst heq
        have := List.find?_eq_none.mp hnone r hrmem
        rw [hrchk] at this
        exact absurd this (by simp)
      · exact ih ⟨sub, hmem, r, hrmem, hrchk⟩

/-! ## C2 and C10: the full-bypass token -/

/-- C2: a command carrying the `GUARD_BYPASS=1 ` prefix is evaluated by
the bypass branch only — the fetch/URL guard plus the git deny rules on
each sub-command of the remaining chain; every decision it can produce
is a block (never an ask or a tool-selection exit), and a sub-command
matching any git deny rule still yields a block decision. -/
theorem bypass_enforces_deny_only (branch? : Option String)
    (mf : String → List ManifestInfo) (level command : String)
    (h1 : pyStartsWith command bypassToken = true)
    (hlen : strLen command ≤ 100000) :
    (handleBash branch? mf level command =
      (match (check_fetch_command level (pyDrop command (strLen bypassToken))).2.1 with
       | some e => BashOutcome.exitWith e
       | none =>
         match bypassDenyScan (split_commands (pyDrop command (strLen bypassToken))) with
         | some e => BashOutcome.exitWith e
         | none => BashOutcome.passThrough)) ∧
    (∀ e, handleBash branch? mf level command = BashOutcome.exitWith e →
      e.action = "block") ∧
    ((∃ sub ∈ split_commands (pyDrop command (strLen bypassToken)), ∃ r ∈ GIT_DENY_RULES,
        r.check (stripEnvVars (strip_shell_keyword sub)) = true) →
      ∃ e, handleBash branch? mf level command = BashOutcome.exitWith e ∧
        e.action = "block") := by
  have hne : command ≠ "" := by
    intro hc
    rw [hc] at h1
    exact absurd h1 (by decide)
  have hlen2 : ¬(strLen command > 100000) := by omega
  have hmain : handleBash branch? mf level command =
      (match (check_fetch_command level (pyDrop command (strLen bypassToken))).2.1 with
       | some e => BashOutcome.exitWith e
       | none =>
         match bypassDenyScan (split_commands (pyDrop command (strLen bypassToken))) with
         | some e => BashOutcome.exitWith e
         | none => BashOutcome.passThrough) := by
    unfold handleBash
    rw [if_neg hne, if_neg hlen2, if_pos h1]
  refine ⟨hmain, ?_, ?_⟩
  · intro e he
    rw [hmain] at he
    cases hf : (check_fetch_command level (pyDrop command (strLen bypassToken))).2.1 with
    | some e2 =>
      rw [hf] at he
      simp at he
      rw [← he]
      exact fetch_decision_block level _ e2 hf
    | none =>
      rw [hf] at he
      cases hd : bypassDenyScan (split_commands (pyDrop command (strLen bypassToken))) with
      | some e2 =>
        rw [hd] at he
        simp at he
        rw [← he]
        exact bypassDenyScan_block _ e2 hd
      | none =>
        rw [hd] at he
        exact absurd he (by simp)
  · intro hex
    obtain ⟨e2, hd, _⟩ := bypassDenyScan_complete _ hex
    cases hf : (check_fetch_command level (pyDrop command (strLen bypassToken))).2.1 with
    | some e3 =>
      refine ⟨e3, ?_, fetch_decision_block level _ e3 hf⟩
      rw [hmain, hf]
    | none =>
      refine ⟨e2, ?_, bypassDenyScan_block _ e2 hd⟩
      rw [hmain, hf, hd]

/-- Witness for C2: `GUARD_BYPASS=1 git reset --hard` is still blocked
by the `reset-hard` deny rule. -/
theorem bypass_enforces_deny_only_witness :
    handleBash none noManifest "actions" "GUARD_BYPASS=1 git reset --hard" =
      BashOutcome.exitWith ⟨"git reset --hard is FORBIDDEN. Use \x27git reset --mixed\x27 or \x27git stash\x27 to preserve changes.",
        "block", some "reset-hard", some "git reset --hard"⟩ := by
  rw [(bypass_enforces_deny_only none noManifest "actions" "GUARD_BYPASS=1 git reset --hard"
    (by decide) (by decide)).1]
  decide

/-- C10: when the stripped command does not literally begin with
`GUARD_BYPASS=1 `, the bypass branch is not taken: evaluation is the
full pipeline (fetch guard, then every sub-command through all deny,
ask and tool-selection rules); in particular a bypass token appearing
in a later sub-command does not disable the deny rules. -/
theorem bypass_only_at_prefix (branch? : Option String)
    (mf : String → List ManifestInfo) (level command : String)
    (h1 : pyStartsWith command bypassToken = false)
    (hne : command ≠ "") (hlen : strLen command ≤ 100000) :
    (handleBash branch? mf level command =
      (match (check_fetch_command level command).2.1 with
       | some e => BashOutcome.exitWith e
       | none =>
         match chainEval branch? mf (split_commands command) false with
         | some e => BashOutcome.exitWith e
         | none => BashOutcome.passThrough)) ∧
    handleBash none noManifest "actions" "git status && GUARD_BYPASS=1 git reset --hard" =
      BashOutcome.exitWith ⟨"git reset --hard is FORBIDDEN. Use \x27git reset --mixed\x27 or \x27git stash\x27 to preserve changes.",
        "block", some "reset-hard", some "GUARD_BYPASS=1 git reset --hard"⟩ := by
  constructor
  · have hlen2 : ¬(strLen command > 100000) := by omega
    have h1f : ¬(pyStartsWith command bypassToken = true) := by simp [h1]
    unfold handleBash
    rw [if_neg hne, if_neg hlen2, if_neg h1f]
  · decide

/-- Witness for C10: a plain `cat file.py` goes through the full rule
pipeline and is blocked by the `cat-file` tool-selection rule. -/
theorem bypass_only_at_prefix_witness :
    handleBash none noManifest "actions" "cat file.py" =
      BashOutcome.exitWith ⟨"Use the Read tool instead of `cat`. It\x27s always available -- no Bash permission needed.",
        "block", some "cat-file", some "cat file.py"⟩ := by
  rw [( bypass_only_at_prefix none noManifest "actions" "cat file.py"
    (by decide) (by decide) (by decide)).1]
  decide


/-- Helper: every list contains the empty sublist. -/
theorem containsSub_nil (l : List Char) : containsSub l [] = true := by
  induction l with
  | nil => rfl
  | cons c rest ih => simp [containsSub, ih]

/-- Helper: the per-entry trust condition, unfolded to scope and substring facts. -/
theorem entry_matches_iff (en : TrustEntry) (cmd : String) (sid : Option String)
    (hcmd : cmd ≠ "") :
    (!(en.scope = TrustScope.session && en.sessionId ≠ sid) &&
     !(optTruthy en.matchPattern && optTruthy (some cmd) &&
       !inStr (lowerS (en.matchPattern.getD "")) (lowerS ((some cmd).getD "")))) = true ↔
    ((en.scope = TrustScope.always ∨ (en.scope = TrustScope.session ∧ en.sessionId = sid)) ∧
     (∀ p, en.matchPattern = some p → inStr (lowerS p) (lowerS cmd) = true)) := by
  have hopt : optTruthy (some cmd) = true := by simp [optTruthy, hcmd]
  have hnil : ∀ s : String, inStr (lowerS "") (lowerS s) = true := by
    intro s
    simpa [inStr, lowerS] using containsSub_nil ((lowerS s).data)
  rcases hs : en.scope with _ | _ <;> rcases hm : en.matchPattern with _ | p
  · simp [hs, hm, optTruthy]
  · simp [hs, hm, optTruthy, hopt]
    rintro _ (rfl | rfl)
    · exact hnil cmd
    · exact absurd rfl hcmd
  · simp [hs, hm, optTruthy]
  · simp [hs, hm, optTruthy, hopt]
    rintro (rfl | rfl)
    · exact hnil cmd
    · exact absurd rfl hcmd

/-- Helper: the trust lookup succeeds exactly when some stored entry for the rule
has an admitting scope and a (case-insensitively) matching optional substring. -/
theorem check_trust_iff (entries : List TrustEntry) (ruleName cmd : String)
    (sid : Option String) (hcmd : cmd ≠ "") :
    check_trust entries ruleName (some cmd) sid = true ↔
    ∃ en ∈ entries, en.ruleName = ruleName ∧
      (en.scope = TrustScope.always ∨ (en.scope = TrustScope.session ∧ en.sessionId = sid)) ∧
      (∀ p, en.matchPattern = some p → inStr (lowerS p) (lowerS cmd) = true) := by
  unfold check_trust
  rw [List.any_eq_true]
  constructor
  · rintro ⟨en, hmem, hcond⟩
    have hmem2 := List.mem_filter.mp hmem
    refine ⟨en, hmem2.1, by simpa using hmem2.2, ?_⟩
    exact (entry_matches_iff en cmd sid hcmd).mp hcond
  · rintro ⟨en, hmem, hrn, hsc, hmp⟩
    exact ⟨en, List.mem_filter.mpr ⟨hmem, by simp [hrn]⟩,
      (entry_matches_iff en cmd sid hcmd).mpr ⟨hsc, hmp⟩⟩

/-- C4: the trust lookup returns true exactly when some stored entry for the
rule name has scope always, or scope session with the current session id, and
its match substring (when present) occurs case-insensitively in the subject;
and trust is consulted only for ask decisions: a block-action exit produces
the stderr block outcome for every trust list, while an ask-action exit with a
named rule consults the trust lookup to choose between trusted-allow and ask. -/
theorem trust_scope_and_block_independence :
    (∀ (entries : List TrustEntry) (ruleName cmd : String) (sid : Option String),
      cmd ≠ "" →
      (check_trust entries ruleName (some cmd) sid = true ↔
       ∃ en ∈ entries, en.ruleName = ruleName ∧
         (en.scope = TrustScope.always ∨ (en.scope = TrustScope.session ∧ en.sessionId = sid)) ∧
         (∀ p, en.matchPattern = some p → inStr (lowerS p) (lowerS cmd) = true))) ∧
    (∀ (trust : List TrustEntry) (sid : Option String) (e : GuardExit),
      e.action = "block" →
      exit_with_decision trust sid e = Outcome.stderrExit2
        (match e.ruleName with
         | some n => if n = "" then e.guidance else "[" ++ n ++ "] " ++ e.guidance
         | none => e.guidance)) ∧
    (∀ (trust : List TrustEntry) (sid : Option String) (e : GuardExit) (n : String),
      e.action = "ask" → e.ruleName = some n → n ≠ "" →
      exit_with_decision trust sid e =
        if check_trust trust n e.matched sid then
          Outcome.jsonExit0 "allow" ("[trusted] [" ++ n ++ "] " ++ e.guidance)
        else Outcome.jsonExit0 "ask" (enhancedReason e sid)) := by
  refine ⟨fun entries ruleName cmd sid hcmd => check_trust_iff entries ruleName cmd sid hcmd,
    ?_, ?_⟩
  · intro trust sid e he
    rw [exit_with_decision, if_neg (by rw [he]; decide), if_neg (by rw [he]; decide)]
  · intro trust sid e n ha hn hne
    by_cases ht : check_trust trust n e.matched sid = true <;>
      simp [exit_with_decision, ha, hn, hne, ht]

/-- Witness for C4: an always-scoped entry with substring "Stash" trusts
"git stash drop" in an unrelated session; a block exit ignores a trust entry
naming its rule; a trusted ask becomes an allow. -/
theorem trust_scope_and_block_independence_witness :
    check_trust [⟨"stash-drop", some "Stash", TrustScope.always, none⟩] "stash-drop"
      (some "git stash drop") (some "s1") = true ∧
    exit_with_decision [⟨"reset-hard", none, TrustScope.always, none⟩] (some "s1")
      ⟨"msg", "block", some "reset-hard", none⟩ =
      Outcome.stderrExit2 ("[reset-hard] " ++ "msg") ∧
    exit_with_decision [⟨"stash-drop", some "Stash", TrustScope.always, none⟩] (some "s1")
      ⟨"g", "ask", some "stash-drop", some "git stash drop"⟩ =
      Outcome.jsonExit0 "allow" ("[trusted] [" ++ "stash-drop" ++ "] " ++ "g") := by
  refine ⟨?_, ?_, ?_⟩
  · exact (trust_scope_and_block_independence.1 _ _ _ _ (by decide)).mpr
      ⟨⟨"stash-drop", some "Stash", TrustScope.always, none⟩, by decide, rfl, Or.inl rfl,
        by intro p hp; injection hp with h; subst h; decide⟩
  · exact trust_scope_and_block_independence.2.1 _ _ _ rfl
  · rw [trust_scope_and_block_independence.2.2 _ _ _ "stash-drop" rfl rfl (by decide)]
    decide

/-- Helper: a findSome? that skips elements satisfying a predicate equals
findSome? over the filtered list. -/
theorem findSome_skip_eq_filter {A B : Type} (f : A → Option B) (p : A → Bool) :
    ∀ l : List A,
      (l.findSome? fun r => if p r then none else f r) =
      (l.filter fun r => !p r).findSome? f := by
  intro l
  induction l with
  | nil => rfl
  | cons a rest ih =>
    by_cases h : p a = true <;>
      simp [List.findSome?_cons, List.filter_cons, h, ih]

/-- Helper: checkRules with a skip set equals git safety followed by the
rule scan over the table with the skipped rules filtered out. -/
theorem checkRules_skip_filter (b : Option String) (cmd : String) (fs : Bool)
    (skip : List String) :
    checkRules b cmd fs (some skip) =
      (match check_git_safety b (strip_shell_keyword cmd) fs with
       | some e => some e
       | none =>
         scanRules (RULES.filter fun r => !skip.contains r.name)
           (strip_shell_keyword cmd) (stripEnvVars (strip_shell_keyword cmd))) := by
  unfold checkRules scanRules
  cases hg : check_git_safety b (strip_shell_keyword cmd) fs
  · simp only [hg]
    exact findSome_skip_eq_filter _ _ RULES
  · simp [hg]

/-- Helper: checkPipes scans exactly the pipe segments after the first,
each with the pipe-exemption skip set. -/
theorem checkPipes_eq_drop (b : Option String) (cmd : String) (fs : Bool) :
    checkPipes b cmd fs =
      ((split_pipes cmd).drop 1).findSome? fun seg =>
        checkRules b seg fs (some pipeSegmentSkip) := by
  unfold checkPipes
  cases h : split_pipes cmd with
  | nil => rfl
  | cons a rest => cases rest with
    | nil => rfl
    | cons c t => rfl

/-- C6: on pipe segments after the first, rules in the pipe-exemption set
are never evaluated (the scan runs over the rule table with them filtered
out) while every other rule is evaluated against each later segment; the
python3 segment of "oc get pods | python3 -c ..." is blocked by the python
rule, and "cat file.py | grep pattern" produces no decision. -/
theorem pipe_exemption_later_segments :
    (∀ (b : Option String) (seg : String) (fs : Bool),
      checkRules b seg fs (some pipeSegmentSkip) =
        (match check_git_safety b (strip_shell_keyword seg) fs with
         | some e => some e
         | none =>
           scanRules (RULES.filter fun r => !pipeSegmentSkip.contains r.name)
             (strip_shell_keyword seg) (stripEnvVars (strip_shell_keyword seg)))) ∧
    (∀ (b : Option String) (cmd : String) (fs : Bool),
      checkPipes b cmd fs =
        ((split_pipes cmd).drop 1).findSome? fun seg =>
          checkRules b seg fs (some pipeSegmentSkip)) ∧
    ((checkSubcmd none noManifest "oc get pods | python3 -c \x27print(1)\x27" false).1.map
        (fun e => (e.ruleName, e.action, e.matched)) =
      some (some "python", "block", some "python3 -c \x27print(1)\x27")) ∧
    checkSubcmd none noManifest "cat file.py | grep pattern" false = (none, false) := by
  exact ⟨fun b seg fs => checkRules_skip_filter b seg fs pipeSegmentSkip,
    checkPipes_eq_drop, by decide, by decide⟩

/-- Helper: the rows the URL loop writes are exactly the expected per-URL
audit rows passed through the verbosity filter. -/
theorem fetchLoop_logs_eq (level cmd : String) (urls : List String) :
    (fetchLoop level cmd urls).2 = (fetchExpectedRows urls).flatMap (logEvent level) := by
  induction urls with
  | nil => rfl
  | cons url rest ih =>
    unfold fetchLoop fetchExpectedRows
    cases h : check_url_rules url with
    | some t =>
      rcases t with ⟨n, g, a⟩
      simp [h]
    | none =>
      simp [h, ih]

/-- Helper: at any level other than off (and other than actions for
allowed rows) the filter passes the row through unchanged. -/
theorem logEvent_verbose (level : String) (row : LogRow)
    (h1 : level ≠ "off") (h2 : level = "actions" → row.action ≠ "allowed") :
    logEvent level row = [row] := by
  unfold logEvent
  rw [if_neg (by simpa using h1)]
  by_cases ha : level = "actions"
  · rw [if_neg]
    simp [ha, h2 ha]
  · rw [if_neg]
    simp [ha]

/-- C9 (amended): for every examined URL the fetch guard produces an
expected audit row recording that URL and its outcome, and the rows
actually written are exactly those rows passed through the verbosity
filter; at any level other than off (and other than actions for allowed
rows) every row is written, as the concrete curl command shows at level
all. -/
theorem fetch_audit_rows_filtered_by_level :
    (∀ (level cmd : String) (urls : List String),
      (fetchLoop level cmd urls).2 = (fetchExpectedRows urls).flatMap (logEvent level)) ∧
    (∀ (level : String) (row : LogRow),
      level ≠ "off" → (level = "actions" → row.action ≠ "allowed") →
      logEvent level row = [row]) ∧
    (check_fetch_command "all" "curl http://example.com/a").2.2 =
      [⟨"url", "allowed", none, some "http://example.com/a"⟩] := by
  exact ⟨fetchLoop_logs_eq, logEvent_verbose, by decide⟩

/-- Counterexample to C9 as stated: the same curl command whose URL is
examined (and logged as allowed at level all) writes no audit row at all
when the log level is off, so the event is not written for every value of
the verbosity setting. -/
theorem fetch_audit_suppressed_at_level_off :
    extract_urls "curl http://example.com/a" = ["http://example.com/a"] ∧
    (check_fetch_command "all" "curl http://example.com/a").2.2 =
      [⟨"url", "allowed", none, some "http://example.com/a"⟩] ∧
    (check_fetch_command "off" "curl http://example.com/a").1 = true ∧
    (check_fetch_command "off" "curl http://example.com/a").2.2 = [] := by decide

/-- Witness for C9 (amended) at a concrete URL list and at level all. -/
theorem fetch_audit_rows_filtered_by_level_witness :
    (fetchLoop "all" "curl x" ["http://e/a"]).2 =
      (fetchExpectedRows ["http://e/a"]).flatMap (logEvent "all") ∧
    logEvent "all" ⟨"url", "blocked", some "r", some "u"⟩ =
      [⟨"url", "blocked", some "r", some "u"⟩] :=
  ⟨fetch_audit_rows_filtered_by_level.1 "all" "curl x" ["http://e/a"],
   fetch_audit_rows_filtered_by_level.2.1 "all" ⟨"url", "blocked", some "r", some "u"⟩ (by decide)
     (fun h => absurd h (by decide))⟩

/-- Helper: dropWhile leaves a replicate list intact when the predicate
rejects its element. -/
theorem dropWhile_replicate_false {p : Char → Bool} {c : Char} (hp : p c = false) (n : Nat) :
    (List.replicate n c).dropWhile p = List.replicate n c := by
  cases n with
  | zero => rfl
  | succ m => simp [List.replicate_succ, List.dropWhile_cons, hp]

/-- Helper: stripping a run of letters changes nothing. -/
theorem pyStrip_replicate_a (n : Nat) :
    pyStrip (List.replicate n (Char.ofNat 97)) = List.replicate n (Char.ofNat 97) := by
  have hp : pyWs (Char.ofNat 97) = false := by decide
  unfold pyStrip
  rw [dropWhile_replicate_false hp, List.reverse_replicate, dropWhile_replicate_false hp,
      List.reverse_replicate]

/-- Helper: the stripped length of 100001 letters is 100001. -/
theorem strLen_strip_big :
    strLen (pyStripS (String.mk (List.replicate 100001 (Char.ofNat 97)))) = 100001 := by
  have h1 : pyStripS (String.mk (List.replicate 100001 (Char.ofNat 97))) =
      String.mk (List.replicate 100001 (Char.ofNat 97)) := by
    unfold pyStripS
    rw [show (String.mk (List.replicate 100001 (Char.ofNat 97))).data =
        List.replicate 100001 (Char.ofNat 97) from rfl, pyStrip_replicate_a]
  rw [h1]
  show (List.replicate 100001 (Char.ofNat 97)).length = 100001
  rw [List.length_replicate]

/-- C8 (amended): oversized stdin and malformed JSON fail open (exit 0,
no decision), but an event whose stripped shell-command payload exceeds
the 100000-character limit fails closed: the dispatcher exits 2 with the
oversized-command error instead of passing through. -/
theorem malformed_and_oversized_input_handling :
    (∀ (b : Option String) (mf : String → List ManifestInfo) (level : String),
      processHookInput b mf level HookStdin.tooBig = HookOutcome.failOpen ∧
      processHookInput b mf level HookStdin.badJson = HookOutcome.failOpen) ∧
    (∀ (b : Option String) (mf : String → List ManifestInfo) (level : String) (c : String),
      strLen (pyStripS c) > 100000 →
      processHookInput b mf level (HookStdin.parsedBash c) =
        HookOutcome.bash BashOutcome.tooLarge) := by
  refine ⟨fun b mf level => ⟨rfl, rfl⟩, ?_⟩
  intro b mf level c h
  have hne : pyStripS c ≠ "" := by
    intro he
    rw [he] at h
    exact absurd h (by decide)
  show HookOutcome.bash (handleBash b mf level (pyStripS c)) =
    HookOutcome.bash BashOutcome.tooLarge
  unfold handleBash
  rw [if_neg hne, if_pos h]

/-- Counterexample to C8 as stated: a parsed Bash event whose command is
100001 letters is oversized, yet the invocation does not fail open -- it
takes the tooLarge branch, which prints an error and exits 2. -/
theorem oversized_command_fails_closed :
    processHookInput none noManifest "all"
      (HookStdin.parsedBash (String.mk (List.replicate 100001 (Char.ofNat 97)))) =
      HookOutcome.bash BashOutcome.tooLarge := by
  have h : strLen (pyStripS (String.mk (List.replicate 100001 (Char.ofNat 97)))) > 100000 := by
    rw [strLen_strip_big]
    decide
  have hne : pyStripS (String.mk (List.replicate 100001 (Char.ofNat 97))) ≠ "" := by
    intro he
    rw [he] at h
    exact absurd h (by decide)
  show HookOutcome.bash (handleBash none noManifest "all"
      (pyStripS (String.mk (List.replicate 100001 (Char.ofNat 97))))) =
    HookOutcome.bash BashOutcome.tooLarge
  unfold handleBash
  rw [if_neg hne, if_pos h]

/-- Witness for C8 (amended): oversized stdin fails open and the
100001-letter command takes the fail-closed tooLarge branch. -/
theorem malformed_and_oversized_input_handling_witness :
    processHookInput none noManifest "all" HookStdin.tooBig = HookOutcome.failOpen ∧
    processHookInput none noManifest "all"
      (HookStdin.parsedBash (String.mk (List.replicate 100001 (Char.ofNat 97)))) =
      HookOutcome.bash BashOutcome.tooLarge :=
  ⟨(malformed_and_oversized_input_handling.1 none noManifest "all").1,
   malformed_and_oversized_input_handling.2 none noManifest "all" _ (by rw [strLen_strip_big]; decide)⟩

/-- Helper: a command delimiter is one or two characters wide, and a
two-character delimiter never sits at the end of the text. -/
theorem cmdDelim_width : ∀ (c : Char) (rest cur : List Char) (n : Nat) (cur2 : List Char),
    cmdDelim (c :: rest) cur = some (n, cur2) →
    n = 1 ∨ (n = 2 ∧ rest ≠ []) := by
  intro c rest cur n cur2 h
  unfold cmdDelim at h
  split at h <;> simp_all

/-- Helper: rejoining the raw scan segments with the recognized delimiter
strings reconstructs the input exactly. -/
theorem splitICore_interleave :
    ∀ (f : Nat) (l : List Char) (inS inD : Bool) (cur : List Char), l.length < f →
      interleave (splitICore cmdDelim f l inS inD cur).1
        (splitICore cmdDelim f l inS inD cur).2 = cur ++ l := by
  intro f
  induction f with
  | zero =>
    intro l inS inD cur h
    exact absurd h (by omega)
  | succ f ih =>
    intro l inS inD cur h
    cases l with
    | nil => simp [splitICore, interleave]
    | cons c rest =>
      have hr : rest.length < f := by
        simpa using Nat.lt_of_succ_lt_succ (by simpa using h)
      unfold splitICore
      by_cases h1 : (c = squote && !inD) = true
      · rw [if_pos h1, ih rest (!inS) inD (cur ++ [c]) hr]
        simp
      · rw [if_neg h1]
        by_cases h2 : (c = dquote && !inS) = true
        · rw [if_pos h2, ih rest inS (!inD) (cur ++ [c]) hr]
          simp
        · rw [if_neg h2]
          by_cases h3 : (!inS && !inD) = true
          · rw [if_pos h3]
            cases hd : cmdDelim (c :: rest) cur with
            | none =>
              simp only [hd]
              rw [ih rest inS inD (cur ++ [c]) hr]
              simp
            | some p =>
              rcases p with ⟨n, cur2⟩
              simp only [hd]
              rw [interleave]
              have hdr : (rest.drop (n - 1)).length < f :=
                Nat.lt_of_le_of_lt (by simp) hr
              rw [ih (rest.drop (n - 1)) inS inD [] hdr]
              rcases cmdDelim_width c rest cur n cur2 hd with hn | ⟨hn, hne⟩
              · subst hn
                simp
              · subst hn
                cases rest with
                | nil => exact absurd rfl hne
                | cons x rest2 => simp
          · rw [if_neg h3, ih rest inS inD (cur ++ [c]) hr]
            simp

/-- Helper: dropping the head preserves absence of backslash-newline. -/
theorem hasBsNl_tail (a : Char) (l : List Char) (h : hasBsNl (a :: l) = false) :
    hasBsNl l = false := by
  cases l with
  | nil => rfl
  | cons b rest =>
    unfold hasBsNl at h
    exact (Bool.or_eq_false_iff.mp h).2

/-- Helper: a suffix of a text without backslash-newline has none. -/
theorem hasBsNl_append (a b : List Char) (h : hasBsNl (a ++ b) = false) :
    hasBsNl b = false := by
  induction a with
  | nil => exact h
  | cons x xs ih => exact ih (hasBsNl_tail x _ (by simpa using h))

/-- Helper: dropping a prefix preserves absence of backslash-newline. -/
theorem hasBsNl_drop (k : Nat) (l : List Char) (h : hasBsNl l = false) :
    hasBsNl (l.drop k) = false := by
  rcases List.drop_suffix k l with ⟨pre, hpre⟩
  exact hasBsNl_append pre _ (by rw [hpre]; exact h)

/-- Helper: a segment ending in a backslash followed by a newline is a
backslash-newline occurrence. -/
theorem hasBsNl_getLast (cur : List Char) (rest : List Char)
    (h : cur.getLast? = some bslash) : hasBsNl (cur ++ '\n' :: rest) = true := by
  induction cur with
  | nil => simp at h
  | cons x xs ih =>
    cases xs with
    | nil =>
      simp at h
      subst h
      simp [hasBsNl]
    | cons y ys =>
      have h2 : (y :: ys).getLast? = some bslash := by
        rw [List.getLast?_cons_cons] at h
        exact h
      have h3 := ih h2
      unfold hasBsNl
      simp only [List.cons_append]
      rw [List.cons_append] at h3
      simp [h3]

/-- Helper: when the text has no backslash-newline, the delimiter
recognizer never modifies the accumulated segment. -/
theorem cmdDelim_nomut (c : Char) (rest cur : List Char) (n : Nat) (cur2 : List Char)
    (hbs : hasBsNl (cur ++ c :: rest) = false)
    (h : cmdDelim (c :: rest) cur = some (n, cur2)) : cur2 = cur := by
  unfold cmdDelim at h
  split at h
  · simp_all
  · simp_all
  · simp_all
  · next tail heq =>
    by_cases hl : cur.getLast? = some bslash
    · have hc : c = '\n' := by
        injection heq with h1 h2
      exact absurd (by rw [hc] at hbs; rw [hasBsNl_getLast cur rest hl] at hbs; exact hbs)
        (by simp)
    · simp only [hl, if_neg] at h
      simp at h
      exact h.2.symm
  · simp_all

/-- Helper: without backslash-newline, the splitter output is exactly the
raw scan segments whitespace-stripped with empties dropped. -/
theorem splitCore_eq_ICore :
    ∀ (f : Nat) (l : List Char) (inS inD : Bool) (cur : List Char),
      l.length < f → hasBsNl (cur ++ l) = false →
      (splitCore cmdDelim f l inS inD cur).filter (fun p => !p.isEmpty) =
        ((splitICore cmdDelim f l inS inD cur).1.map pyStrip).filter
          (fun p => !p.isEmpty) := by
  intro f
  induction f with
  | zero =>
    intro l inS inD cur h
    exact absurd h (by omega)
  | succ f ih =>
    intro l inS inD cur h hbs
    cases l with
    | nil =>
      unfold splitCore splitICore
      by_cases hc : cur.isEmpty
      · have : cur = [] := by simpa [List.isEmpty_iff] using hc
        subst this
        simp [pyStrip]
      · rw [if_neg hc]
        simp
    | cons c rest =>
      have hr : rest.length < f := by
        simpa using Nat.lt_of_succ_lt_succ (by simpa using h)
      have hbs2 : hasBsNl ((cur ++ [c]) ++ rest) = false := by
        simpa using hbs
      unfold splitCore splitICore
      by_cases h1 : (c = squote && !inD) = true
      · rw [if_pos h1, if_pos h1]
        exact ih rest (!inS) inD (cur ++ [c]) hr hbs2
      · rw [if_neg h1, if_neg h1]
        by_cases h2 : (c = dquote && !inS) = true
        · rw [if_pos h2, if_pos h2]
          exact ih rest inS (!inD) (cur ++ [c]) hr hbs2
        · rw [if_neg h2, if_neg h2]
          by_cases h3 : (!inS && !inD) = true
          · rw [if_pos h3, if_pos h3]
            cases hd : cmdDelim (c :: rest) cur with
            | none =>
              simp only [hd]
              exact ih rest inS inD (cur ++ [c]) hr hbs2
            | some p =>
              rcases p with ⟨n, cur2⟩
              simp only [hd]
              have hcc : cur2 = cur := cmdDelim_nomut c rest cur n cur2 hbs hd
              rw [hcc]
              have hdrop : hasBsNl ([] ++ rest.drop (n - 1)) = false := by
                simpa using hasBsNl_drop (n - 1) rest
                  (hasBsNl_tail c rest (hasBsNl_append cur (c :: rest) hbs))
              have htl := ih (rest.drop (n - 1)) inS inD []
                (Nat.lt_of_le_of_lt (by simp) hr) hdrop
              simp only [List.map_cons, List.filter_cons]
              rw [htl]
          · rw [if_neg h3, if_neg h3]
            exact ih rest inS inD (cur ++ [c]) hr hbs2

/-- Helper: whether a position starts a delimiter does not depend on the
accumulated segment. -/
theorem cmdDelim_none_any_cur (rest cur : List Char)
    (h : cmdDelim rest [] = none) : cmdDelim rest cur = none := by
  unfold cmdDelim at h ⊢
  split at h <;> simp_all

/-- Helper: a scan meeting no unquoted delimiter yields one segment, the
whole input stripped. -/
theorem splitCore_noDelim :
    ∀ (f : Nat) (l : List Char) (inS inD : Bool) (cur : List Char),
      l.length < f → noUnquotedDelim l inS inD = true →
      splitCore cmdDelim f l inS inD cur =
        if (cur ++ l).isEmpty then [] else [pyStrip (cur ++ l)] := by
  intro f
  induction f with
  | zero =>
    intro l inS inD cur h
    exact absurd h (by omega)
  | succ f ih =>
    intro l inS inD cur h hnd
    cases l with
    | nil => simp [splitCore]
    | cons c rest =>
      have hr : rest.length < f := by
        simpa using Nat.lt_of_succ_lt_succ (by simpa using h)
      unfold splitCore
      unfold noUnquotedDelim at hnd
      by_cases h1 : (c = squote && !inD) = true
      · rw [if_pos h1] at hnd ⊢
        rw [ih rest (!inS) inD (cur ++ [c]) hr hnd]
        simp
      · rw [if_neg h1] at hnd ⊢
        by_cases h2 : (c = dquote && !inS) = true
        · rw [if_pos h2] at hnd ⊢
          rw [ih rest inS (!inD) (cur ++ [c]) hr hnd]
          simp
        · rw [if_neg h2] at hnd ⊢
          by_cases h3 : (!inS && !inD) = true
          · rw [if_pos h3] at hnd ⊢
            cases hd0 : cmdDelim (c :: rest) [] with
            | some p => rw [hd0] at hnd; exact absurd hnd (by simp)
            | none =>
              rw [hd0] at hnd
              rw [cmdDelim_none_any_cur (c :: rest) cur hd0]
              rw [ih rest inS inD (cur ++ [c]) hr hnd]
              simp
          · rw [if_neg h3] at hnd ⊢
            rw [ih rest inS inD (cur ++ [c]) hr hnd]
            simp

/-- C5 (amended): the chain splitter splits only at unquoted delimiters,
so a command with no unquoted delimiter (such as echo "a && b") yields
exactly one sub-command; rejoining the raw scan segments with the
original delimiters reconstructs the command exactly; and when the
command has no backslash-newline continuation, the returned sub-commands
are exactly those raw segments whitespace-stripped with empties
dropped. -/
theorem split_respects_quotes_and_reconstructs :
    (∀ s : String, noUnquotedDelim s.data false false = true → pyStrip s.data ≠ [] →
      split_commands s = [String.mk (pyStrip s.data)]) ∧
    (noUnquotedDelim (String.data "echo \"a && b\"") false false = true ∧
      split_commands "echo \"a && b\"" = ["echo \"a && b\""]) ∧
    (∀ s : String,
      interleave (splitICore cmdDelim (strLen s + 1) s.data false false []).1
        (splitICore cmdDelim (strLen s + 1) s.data false false []).2 = s.data) ∧
    (∀ s : String, hasBsNl s.data = false →
      split_commands s =
        (((splitICore cmdDelim (strLen s + 1) s.data false false []).1.map pyStrip).filter
          (fun p => !p.isEmpty)).map String.mk) := by
  refine ⟨?_, ⟨by decide, by decide⟩, ?_, ?_⟩
  · intro s hnd hne
    unfold split_commands splitWith
    rw [splitCore_noDelim (s.data.length + 1) s.data false false [] (by omega) hnd]
    have hd : s.data ≠ [] := by
      intro hs
      exact hne (by rw [hs]; rfl)
    have hk : (pyStrip s.data).isEmpty = false := by
      simpa [List.isEmpty_iff] using hne
    rw [if_neg (by simpa [List.isEmpty_iff] using hd)]
    simp [hk]
  · intro s
    simpa using splitICore_interleave (strLen s + 1) s.data false false []
      (by simp [strLen])
  · intro s hbs
    unfold split_commands splitWith
    rw [splitCore_eq_ICore (s.data.length + 1) s.data false false [] (by omega)
      (by simpa using hbs)]
    rfl

/-- Counterexample to C5 as stated: the splitter still splits at the
escaped newline of a line continuation and replaces the trailing
backslash with a space, so rejoining the returned sub-commands with the
original delimiter gives a two-command chain that lost the backslash --
not an equivalent command. -/
theorem backslash_newline_segment_unrecoverable :
    hasBsNl (String.data "a \\\nb") = true ∧
    split_commands "a \\\nb" = ["a", "b"] ∧
    (splitICore cmdDelim (strLen "a \\\nb" + 1) (String.data "a \\\nb") false false []).2 =
      [['\n']] ∧
    joinWith "\n" (split_commands "a \\\nb") = "a\nb" ∧
    (String.data "a\nb").count bslash = 0 ∧
    (String.data "a \\\nb").count bslash = 1 := by decide

/-- Witness for C5 (amended) on concrete commands. -/
theorem split_respects_quotes_and_reconstructs_witness :
    split_commands "echo hi" = [String.mk (pyStrip (String.data "echo hi"))] ∧
    interleave (splitICore cmdDelim (strLen "ls; pwd" + 1) (String.data "ls; pwd")
        false false []).1
      (splitICore cmdDelim (strLen "ls; pwd" + 1) (String.data "ls; pwd")
        false false []).2 = String.data "ls; pwd" ∧
    split_commands "ls; pwd" =
      (((splitICore cmdDelim (strLen "ls; pwd" + 1) (String.data "ls; pwd")
          false false []).1.map pyStrip).filter
        (fun p => !p.isEmpty)).map String.mk :=
  ⟨split_respects_quotes_and_reconstructs.1 "echo hi" (by decide) (by decide),
   split_respects_quotes_and_reconstructs.2.2.1 "ls; pwd",
   split_respects_quotes_and_reconstructs.2.2.2 "ls; pwd" (by decide)⟩

end DevGuard
